import Mathlib

/-!
# mathesis `types.h`: the vector value types

A shallow embedding of `src/types.h` (`vector2`, `vector3`, `vector4`) and the
properties its specification states about them.

The vector code is embedded once, over an arbitrary scalar type `F` carrying the
operations the C++ uses on `float` (`+ - * /`, unary minus, `<`, `==`, the literal
`0.0f`, and `std::sqrt` passed as a function).  Two kinds of scalars are used:

* `F32`, a model of IEEE-754 binary32 with round-to-nearest-even, signed zeros,
  infinities and one NaN.  This is what the C++ type `float` is when every
  operation is rounded to `float` on its own (no excess precision, no contraction
  of `a * b + c`, no fast-math);
* a commutative ring or field (`ℚ`, `ℝ` with `Real.sqrt`), for the statements the
  specification makes "in exact arithmetic".

A mutating member function is embedded as the function from the old value of
`*this` (and the arguments) to the new one.
-/

/-! ## IEEE-754 binary32 -/

/-- A binary32 datum.  A finite value is kept as a sign and a magnitude counted in
units of `2^-149` (the smallest subnormal): `fin s n` is `(-1)^s * n * 2^-149`. -/
inductive F32 where
  | nan : F32
  | inf (s : Bool) : F32
  | fin (s : Bool) (n : Nat) : F32
  deriving DecidableEq, Repr

namespace F32

/-- Number of halvings, at most `k`, that take `n` below `2`: this is `⌊log₂ n⌋` as
soon as `n ≤ k`, and `0` for `n < 2`. -/
def ilog2Fuel : Nat → Nat → Nat
  | 0, _ => 0
  | k + 1, n => if n < 2 then 0 else ilog2Fuel k (n / 2) + 1

/-- The integer logarithm `⌊log₂ n⌋`, with `ilog2 0 = 0`. -/
def ilog2 (n : Nat) : Nat := ilog2Fuel n n

/-- Exponent of the unit in the last place, relative to `2^-149`, of a magnitude
whose integer part is `f`: magnitudes below `2^24` units are spaced one unit apart
(subnormals and the first binade), above that the significand keeps 24 bits. -/
def ulpExp (f : Nat) : Nat :=
  if f < 2 ^ 24 then 0 else ilog2 f - 23

/-- Round the non-negative rational `p / q` (in units of `2^-149`) to the nearest
magnitude with a 24-bit significand, ties to even. -/
def roundMag (p q : Nat) : Nat :=
  let e := ulpExp (p / q)
  let d := q * 2 ^ e
  let m := p / d
  let r := p % d
  let m1 := if 2 * r < d then m else if d < 2 * r then m + 1 else if m % 2 = 0 then m else m + 1
  m1 * 2 ^ e

/-- Largest finite magnitude, `(2^24 - 1) * 2^104`, in units of `2^-149`. -/
def maxMag : Nat := (2 ^ 24 - 1) * 2 ^ 253

/-- Rounding of `(-1)^s * p / q` units to binary32: overflow gives an infinity. -/
def round (s : Bool) (p q : Nat) : F32 :=
  let n := roundMag p q
  if n ≤ maxMag then fin s n else inf s

/-- The magnitude `n` is that of a binary32 value. -/
def repr (n : Nat) : Prop := n ≤ maxMag ∧ n % 2 ^ ulpExp n = 0

instance (n : Nat) : Decidable (repr n) := by unfold repr; infer_instance

/-- The datum is a binary32 value: its magnitude is representable. -/
def wf : F32 → Bool
  | fin _ n => decide (repr n)
  | _ => true

/-- Finite values (neither infinity nor NaN). -/
def isFinite : F32 → Bool
  | fin _ _ => true
  | _ => false

/-- The NaN test. -/
def isNaN : F32 → Bool
  | nan => true
  | _ => false

/-- The infinity test. -/
def isInf : F32 → Bool
  | inf _ => true
  | _ => false

/-- Unary minus: flips the sign bit. -/
def neg : F32 → F32
  | nan => nan
  | inf s => inf (!s)
  | fin s n => fin (!s) n

/-- Addition.  An exact zero sum of operands of opposite sign is `+0`. -/
def add : F32 → F32 → F32
  | nan, _ => nan
  | _, nan => nan
  | inf s, inf t => if s = t then inf s else nan
  | inf s, fin _ _ => inf s
  | fin _ _, inf t => inf t
  | fin s n, fin t k =>
    if s = t then round s (n + k) 1
    else if k < n then round s (n - k) 1
    else if n < k then round t (k - n) 1
    else fin false 0

/-- Subtraction is addition of the negated operand. -/
def sub (a b : F32) : F32 := add a (neg b)

/-- Multiplication. -/
def mul : F32 → F32 → F32
  | nan, _ => nan
  | _, nan => nan
  | inf s, inf t => inf (xor s t)
  | inf s, fin t k => if k = 0 then nan else inf (xor s t)
  | fin s n, inf t => if n = 0 then nan else inf (xor s t)
  | fin s n, fin t k => round (xor s t) (n * k) (2 ^ 149)

/-- Division. -/
def div : F32 → F32 → F32
  | nan, _ => nan
  | _, nan => nan
  | inf _, inf _ => nan
  | inf s, fin t _ => inf (xor s t)
  | fin s _, inf t => fin (xor s t) 0
  | fin s n, fin t k =>
    if k = 0 then (if n = 0 then nan else inf (xor s t))
    else round (xor s t) (n * 2 ^ 149) k

/-- Integer square root by bisection on the bits, `k` bits from the top. -/
def isqrtBits (N : Nat) : Nat → Nat → Nat
  | 0, r => r
  | k + 1, r =>
    let c := r + 2 ^ k
    isqrtBits N k (if c * c ≤ N then c else r)

/-- Integer square root, `⌊√N⌋`. -/
def isqrt (N : Nat) : Nat := isqrtBits N (ilog2 N / 2 + 1) 0

/-- Correctly rounded magnitude of `√(n * 2^-149)` in units of `2^-149`, for `0 < n`. -/
def sqrtMag (n : Nat) : Nat :=
  let N := n * 2 ^ 149
  let e := ilog2 (isqrt N) - 23
  let m := isqrt (N / 4 ^ e)
  let h := (2 * m + 1) ^ 2 * 4 ^ e
  let m1 := if 4 * N < h then m else if h < 4 * N then m + 1 else if m % 2 = 0 then m else m + 1
  m1 * 2 ^ e

/-- The function `std::sqrt` on `float`. -/
def sqrt : F32 → F32
  | nan => nan
  | inf s => if s then nan else inf false
  | fin s n => if n = 0 then fin s 0 else if s then nan else fin false (sqrtMag n)

/-- The comparison `a < b` of C++ on `float`: false when an operand is NaN. -/
def lt : F32 → F32 → Bool
  | nan, _ => false
  | _, nan => false
  | inf s, inf t => s && !t
  | inf s, fin _ _ => s
  | fin _ _, inf t => !t
  | fin s n, fin t k =>
    match s, t with
    | false, false => decide (n < k)
    | false, true => false
    | true, false => decide (0 < n ∨ 0 < k)
    | true, true => decide (k < n)

/-- The comparison `a == b` of C++ on `float`: false when an operand is NaN, and
`-0.0 == 0.0`. -/
def eq : F32 → F32 → Bool
  | nan, _ => false
  | _, nan => false
  | inf s, inf t => s == t
  | inf _, fin _ _ => false
  | fin _ _, inf _ => false
  | fin s n, fin t k => decide (n = k ∧ (s = t ∨ n = 0))

/-- The comparison `a <= b` of C++ on `float`: less or equal, false when an operand
is NaN. -/
def le (a b : F32) : Bool := lt a b || eq a b

instance : Zero F32 := ⟨fin false 0⟩
instance : One F32 := ⟨fin false (2 ^ 149)⟩
instance : Neg F32 := ⟨neg⟩
instance : Add F32 := ⟨add⟩
instance : Sub F32 := ⟨sub⟩
instance : Mul F32 := ⟨mul⟩
instance : Div F32 := ⟨div⟩
instance : LT F32 := ⟨fun a b => lt a b = true⟩
instance (a b : F32) : Decidable (a < b) := inferInstanceAs (Decidable (lt a b = true))
instance : LE F32 := ⟨fun a b => le a b = true⟩
instance (a b : F32) : Decidable (a ≤ b) := inferInstanceAs (Decidable (le a b = true))
instance : BEq F32 := ⟨eq⟩

/-- The float nearest to the natural number `k`. -/
def ofNat (k : Nat) : F32 := round false (k * 2 ^ 149) 1

end F32

/-! ## The clamp primitive -/

/-- The function `std::max(a, b)` of `<algorithm>`: `b` if `a < b`, otherwise `a`. -/
def std_max {F : Type} [LT F] [∀ a b : F, Decidable (a < b)] (a b : F) : F :=
  if a < b then b else a

/-- The function `std::min(a, b)` of `<algorithm>`: `b` if `b < a`, otherwise `a`. -/
def std_min {F : Type} [LT F] [∀ a b : F, Decidable (a < b)] (a b : F) : F :=
  if b < a then b else a

/-- The function `std::clamp(v, lo, hi)` of `<algorithm>`, as the GNU C++ library
defines it: `std::min(std::max(v, lo), hi)`.  C++17 [alg.clamp] requires that `hi` is
not less than `lo` and then gives the result as `lo` if `v` is less than `lo`, `hi`
if `hi` is less than `v`, otherwise `v`, which is what this returns on such bounds
(`std_clamp_eq_of_ordered`); for `hi` less than `lo` it returns `hi` whenever `v`
is less than `lo` or greater than `hi` (`std_clamp_of_inverted`). -/
def std_clamp {F : Type} [LT F] [∀ a b : F, Decidable (a < b)] (v lo hi : F) : F :=
  std_min (std_max v lo) hi

/-! ## The output stream -/

namespace ostream

end ostream

/-! ## `struct vector2` -/

/-- The aggregate `struct vector2 { float x{}, y{}; }`. -/
structure vector2 (F : Type) where
  x : F
  y : F
  deriving DecidableEq, Repr

namespace vector2

variable {F : Type}

/-- Every component of `v` passes the test `p`. -/
def all (p : F → Bool) (v : vector2 F) : Bool := p v.x && p v.y

/-- The default constructor: both members value-initialised to `0.0f`. -/
def zero [Zero F] : vector2 F := ⟨0, 0⟩

/-- Source `operator+=(const vector2&)`; the result is the new value of `*this`. -/
def add_assign [Add F] (self source : vector2 F) : vector2 F :=
  ⟨self.x + source.x, self.y + source.y⟩

/-- Source `operator-=(const vector2&)`. -/
def sub_assign [Sub F] (self source : vector2 F) : vector2 F :=
  ⟨self.x - source.x, self.y - source.y⟩

/-- Source `operator*=(const vector2&)`, element-wise. -/
def mul_assign [Mul F] (self source : vector2 F) : vector2 F :=
  ⟨self.x * source.x, self.y * source.y⟩

/-- Source `operator/=(const vector2&)`, element-wise. -/
def div_assign [Div F] (self source : vector2 F) : vector2 F :=
  ⟨self.x / source.x, self.y / source.y⟩

/-- Source `operator*=(float)`. -/
def mul_assign_scalar [Mul F] (self : vector2 F) (s : F) : vector2 F :=
  ⟨self.x * s, self.y * s⟩

/-- Source `operator/=(float)`. -/
def div_assign_scalar [Div F] (self : vector2 F) (s : F) : vector2 F :=
  ⟨self.x / s, self.y / s⟩

/-- Unary `operator-`. -/
def neg [Neg F] (self : vector2 F) : vector2 F := ⟨-self.x, -self.y⟩

/-- Source `operator+(vector2 left, const vector2& source)`: `left += source` on the copy. -/
def add [Add F] (left source : vector2 F) : vector2 F := add_assign left source

/-- Source `operator-(vector2 left, const vector2& source)`. -/
def sub [Sub F] (left source : vector2 F) : vector2 F := sub_assign left source

/-- Source `operator*(vector2 left, const vector2& source)`, element-wise. -/
def mul [Mul F] (left source : vector2 F) : vector2 F := mul_assign left source

/-- Source `operator/(vector2 left, const vector2& source)`, element-wise. -/
def div [Div F] (left source : vector2 F) : vector2 F := div_assign left source

/-- Source `operator*(vector2 v, float s)`. -/
def mul_scalar [Mul F] (v : vector2 F) (s : F) : vector2 F := mul_assign_scalar v s

/-- Source `operator*(float s, vector2 v)`. -/
def scalar_mul [Mul F] (s : F) (v : vector2 F) : vector2 F := mul_assign_scalar v s

/-- Source `operator/(vector2 v, float s)`. -/
def div_scalar [Div F] (v : vector2 F) (s : F) : vector2 F := div_assign_scalar v s

instance [Neg F] : Neg (vector2 F) := ⟨neg⟩
instance [Add F] : Add (vector2 F) := ⟨add⟩
instance [Sub F] : Sub (vector2 F) := ⟨sub⟩
instance [Mul F] : Mul (vector2 F) := ⟨mul⟩
instance [Div F] : Div (vector2 F) := ⟨div⟩
instance [Mul F] : HMul (vector2 F) F (vector2 F) := ⟨mul_scalar⟩
instance [Mul F] : HMul F (vector2 F) (vector2 F) := ⟨scalar_mul⟩
instance [Div F] : HDiv (vector2 F) F (vector2 F) := ⟨div_scalar⟩

/-- Source `operator==`. -/
def eq [BEq F] (self source : vector2 F) : Bool :=
  self.x == source.x && self.y == source.y

/-- Source `operator!=`. -/
def ne [BEq F] (self source : vector2 F) : Bool := !(eq self source)

/-- Source `dot`. -/
def dot [Add F] [Mul F] (self source : vector2 F) : F :=
  self.x * source.x + self.y * source.y

/-- Source `cross`: the scalar signed area. -/
def cross [Sub F] [Mul F] (self source : vector2 F) : F :=
  self.x * source.y - self.y * source.x

/-- Source `length_squared`. -/
def length_squared [Add F] [Mul F] (self : vector2 F) : F := self.dot self

/-- Source `length`, with `std::sqrt` as `sqrt`. -/
def length [Add F] [Mul F] (sqrt : F → F) (self : vector2 F) : F :=
  sqrt self.length_squared

/-- Source `normalized`. -/
def normalized [Add F] [Mul F] [Div F] [Zero F] [LT F] [∀ a b : F, Decidable (a < b)]
    (sqrt : F → F) (self : vector2 F) : vector2 F :=
  let len := self.length sqrt
  if len > 0 then self / len else ⟨0, 0⟩

/-- Source `normalize`; the result is the value of `*this` when the call returns. -/
def normalize [Add F] [Mul F] [Div F] [Zero F] [LT F] [∀ a b : F, Decidable (a < b)]
    (sqrt : F → F) (self : vector2 F) : vector2 F :=
  let len := self.length sqrt
  if len > 0 then div_assign_scalar self len else self

/-- Source `distance`. -/
def distance [Add F] [Sub F] [Mul F] (sqrt : F → F) (self other : vector2 F) : F :=
  (other - self).length sqrt

/-- Source `lerp`. -/
def lerp [Add F] [Sub F] [Mul F] (a b : vector2 F) (t : F) : vector2 F :=
  a + (b - a) * t

/-- Source `clamp`. -/
def clamp [LT F] [∀ a b : F, Decidable (a < b)] (v min max : vector2 F) : vector2 F :=
  ⟨std_clamp v.x min.x max.x, std_clamp v.y min.y max.y⟩

end vector2

/-! ## `struct vector3` -/

/-- The aggregate `struct vector3 { float x{}, y{}, z{}; }`. -/
structure vector3 (F : Type) where
  x : F
  y : F
  z : F
  deriving DecidableEq, Repr

namespace vector3

variable {F : Type}

/-- Every component of `v` passes the test `p`. -/
def all (p : F → Bool) (v : vector3 F) : Bool := p v.x && p v.y && p v.z

/-- The default constructor: all three members value-initialised to `0.0f`. -/
def zero [Zero F] : vector3 F := ⟨0, 0, 0⟩

/-- Source `operator+=(const vector3&)`; the result is the new value of `*this`. -/
def add_assign [Add F] (self source : vector3 F) : vector3 F :=
  ⟨self.x + source.x, self.y + source.y, self.z + source.z⟩

/-- Source `operator-=(const vector3&)`. -/
def sub_assign [Sub F] (self source : vector3 F) : vector3 F :=
  ⟨self.x - source.x, self.y - source.y, self.z - source.z⟩

/-- Source `operator*=(const vector3&)`, element-wise. -/
def mul_assign [Mul F] (self source : vector3 F) : vector3 F :=
  ⟨self.x * source.x, self.y * source.y, self.z * source.z⟩

/-- Source `operator/=(const vector3&)`, element-wise. -/
def div_assign [Div F] (self source : vector3 F) : vector3 F :=
  ⟨self.x / source.x, self.y / source.y, self.z / source.z⟩

/-- Source `operator*=(float)`. -/
def mul_assign_scalar [Mul F] (self : vector3 F) (s : F) : vector3 F :=
  ⟨self.x * s, self.y * s, self.z * s⟩

/-- Source `operator/=(float)`. -/
def div_assign_scalar [Div F] (self : vector3 F) (s : F) : vector3 F :=
  ⟨self.x / s, self.y / s, self.z / s⟩

/-- Unary `operator-`. -/
def neg [Neg F] (self : vector3 F) : vector3 F := ⟨-self.x, -self.y, -self.z⟩

/-- Source `operator+(vector3 left, const vector3& source)`: `left += source` on the copy. -/
def add [Add F] (left source : vector3 F) : vector3 F := add_assign left source

/-- Source `operator-(vector3 left, const vector3& source)`. -/
def sub [Sub F] (left source : vector3 F) : vector3 F := sub_assign left source

/-- Source `operator*(vector3 left, const vector3& source)`, element-wise. -/
def mul [Mul F] (left source : vector3 F) : vector3 F := mul_assign left source

/-- Source `operator/(vector3 left, const vector3& source)`, element-wise. -/
def div [Div F] (left source : vector3 F) : vector3 F := div_assign left source

/-- Source `operator*(vector3 v, float s)`. -/
def mul_scalar [Mul F] (v : vector3 F) (s : F) : vector3 F := mul_assign_scalar v s

/-- Source `operator*(float s, vector3 v)`. -/
def scalar_mul [Mul F] (s : F) (v : vector3 F) : vector3 F := mul_assign_scalar v s

/-- Source `operator/(vector3 v, float s)`. -/
def div_scalar [Div F] (v : vector3 F) (s : F) : vector3 F := div_assign_scalar v s

instance [Neg F] : Neg (vector3 F) := ⟨neg⟩
instance [Add F] : Add (vector3 F) := ⟨add⟩
instance [Sub F] : Sub (vector3 F) := ⟨sub⟩
instance [Mul F] : Mul (vector3 F) := ⟨mul⟩
instance [Div F] : Div (vector3 F) := ⟨div⟩
instance [Mul F] : HMul (vector3 F) F (vector3 F) := ⟨mul_scalar⟩
instance [Mul F] : HMul F (vector3 F) (vector3 F) := ⟨scalar_mul⟩
instance [Div F] : HDiv (vector3 F) F (vector3 F) := ⟨div_scalar⟩

/-- Source `operator==`. -/
def eq [BEq F] (self source : vector3 F) : Bool :=
  self.x == source.x && self.y == source.y && self.z == source.z

/-- Source `operator!=`. -/
def ne [BEq F] (self source : vector3 F) : Bool := !(eq self source)

/-- Source `dot`. -/
def dot [Add F] [Mul F] (self source : vector3 F) : F :=
  self.x * source.x + self.y * source.y + self.z * source.z

/-- Source `cross`. -/
def cross [Sub F] [Mul F] (self source : vector3 F) : vector3 F :=
  ⟨self.y * source.z - self.z * source.y,
   self.z * source.x - self.x * source.z,
   self.x * source.y - self.y * source.x⟩

/-- Source `length_squared`. -/
def length_squared [Add F] [Mul F] (self : vector3 F) : F := self.dot self

/-- Source `length`, with `std::sqrt` as `sqrt`. -/
def length [Add F] [Mul F] (sqrt : F → F) (self : vector3 F) : F :=
  sqrt self.length_squared

/-- Source `normalized`. -/
def normalized [Add F] [Mul F] [Div F] [Zero F] [LT F] [∀ a b : F, Decidable (a < b)]
    (sqrt : F → F) (self : vector3 F) : vector3 F :=
  let len := self.length sqrt
  if len > 0 then self / len else ⟨0, 0, 0⟩

/-- Source `normalize`; the result is the value of `*this` when the call returns. -/
def normalize [Add F] [Mul F] [Div F] [Zero F] [LT F] [∀ a b : F, Decidable (a < b)]
    (sqrt : F → F) (self : vector3 F) : vector3 F :=
  let len := self.length sqrt
  if len > 0 then div_assign_scalar self len else self

/-- Source `distance`. -/
def distance [Add F] [Sub F] [Mul F] (sqrt : F → F) (self other : vector3 F) : F :=
  (other - self).length sqrt

/-- Source `lerp`. -/
def lerp [Add F] [Sub F] [Mul F] (a b : vector3 F) (t : F) : vector3 F :=
  a + (b - a) * t

/-- Source `clamp`. -/
def clamp [LT F] [∀ a b : F, Decidable (a < b)] (v min max : vector3 F) : vector3 F :=
  ⟨std_clamp v.x min.x max.x, std_clamp v.y min.y max.y, std_clamp v.z min.z max.z⟩

end vector3

/-! ## `struct vector4` -/

/-- The aggregate `struct vector4 { float x{}, y{}, z{}, w{}; }`. -/
structure vector4 (F : Type) where
  x : F
  y : F
  z : F
  w : F
  deriving DecidableEq, Repr

namespace vector4

variable {F : Type}

/-- Every component of `v` passes the test `p`. -/
def all (p : F → Bool) (v : vector4 F) : Bool := p v.x && p v.y && p v.z && p v.w

/-- The default constructor: all four members value-initialised to `0.0f`. -/
def zero [Zero F] : vector4 F := ⟨0, 0, 0, 0⟩

/-- Source `operator+=(const vector4&)`; the result is the new value of `*this`. -/
def add_assign [Add F] (self source : vector4 F) : vector4 F :=
  ⟨self.x + source.x, self.y + source.y, self.z + source.z, self.w + source.w⟩

/-- Source `operator-=(const vector4&)`. -/
def sub_assign [Sub F] (self source : vector4 F) : vector4 F :=
  ⟨self.x - source.x, self.y - source.y, self.z - source.z, self.w - source.w⟩

/-- Source `operator*=(const vector4&)`, element-wise. -/
def mul_assign [Mul F] (self source : vector4 F) : vector4 F :=
  ⟨self.x * source.x, self.y * source.y, self.z * source.z, self.w * source.w⟩

/-- Source `operator/=(const vector4&)`, element-wise. -/
def div_assign [Div F] (self source : vector4 F) : vector4 F :=
  ⟨self.x / source.x, self.y / source.y, self.z / source.z, self.w / source.w⟩

/-- Source `operator*=(float)`. -/
def mul_assign_scalar [Mul F] (self : vector4 F) (s : F) : vector4 F :=
  ⟨self.x * s, self.y * s, self.z * s, self.w * s⟩

/-- Source `operator/=(float)`. -/
def div_assign_scalar [Div F] (self : vector4 F) (s : F) : vector4 F :=
  ⟨self.x / s, self.y / s, self.z / s, self.w / s⟩

/-- Unary `operator-`. -/
def neg [Neg F] (self : vector4 F) : vector4 F := ⟨-self.x, -self.y, -self.z, -self.w⟩

/-- Source `operator+(vector4 left, const vector4& source)`: `left += source` on the copy. -/
def add [Add F] (left source : vector4 F) : vector4 F := add_assign left source

/-- Source `operator-(vector4 left, const vector4& source)`. -/
def sub [Sub F] (left source : vector4 F) : vector4 F := sub_assign left source

/-- Source `operator*(vector4 left, const vector4& source)`, element-wise. -/
def mul [Mul F] (left source : vector4 F) : vector4 F := mul_assign left source

/-- Source `operator/(vector4 left, const vector4& source)`, element-wise. -/
def div [Div F] (left source : vector4 F) : vector4 F := div_assign left source

/-- Source `operator*(vector4 v, float s)`. -/
def mul_scalar [Mul F] (v : vector4 F) (s : F) : vector4 F := mul_assign_scalar v s

/-- Source `operator*(float s, vector4 v)`. -/
def scalar_mul [Mul F] (s : F) (v : vector4 F) : vector4 F := mul_assign_scalar v s

/-- Source `operator/(vector4 v, float s)`. -/
def div_scalar [Div F] (v : vector4 F) (s : F) : vector4 F := div_assign_scalar v s

instance [Neg F] : Neg (vector4 F) := ⟨neg⟩
instance [Add F] : Add (vector4 F) := ⟨add⟩
instance [Sub F] : Sub (vector4 F) := ⟨sub⟩
instance [Mul F] : Mul (vector4 F) := ⟨mul⟩
instance [Div F] : Div (vector4 F) := ⟨div⟩
instance [Mul F] : HMul (vector4 F) F (vector4 F) := ⟨mul_scalar⟩
instance [Mul F] : HMul F (vector4 F) (vector4 F) := ⟨scalar_mul⟩
instance [Div F] : HDiv (vector4 F) F (vector4 F) := ⟨div_scalar⟩

/-- Source `operator==`. -/
def eq [BEq F] (self source : vector4 F) : Bool :=
  self.x == source.x && self.y == source.y && self.z == source.z && self.w == source.w

/-- Source `operator!=`. -/
def ne [BEq F] (self source : vector4 F) : Bool := !(eq self source)

/-- Source `dot`. -/
def dot [Add F] [Mul F] (self source : vector4 F) : F :=
  self.x * source.x + self.y * source.y + self.z * source.z + self.w * source.w

/-- Source `length_squared`. -/
def length_squared [Add F] [Mul F] (self : vector4 F) : F := self.dot self

/-- Source `length`, with `std::sqrt` as `sqrt`. -/
def length [Add F] [Mul F] (sqrt : F → F) (self : vector4 F) : F :=
  sqrt self.length_squared

/-- Source `normalized`. -/
def normalized [Add F] [Mul F] [Div F] [Zero F] [LT F] [∀ a b : F, Decidable (a < b)]
    (sqrt : F → F) (self : vector4 F) : vector4 F :=
  let len := self.length sqrt
  if len > 0 then self / len else ⟨0, 0, 0, 0⟩

/-- Source `normalize`; the result is the value of `*this` when the call returns. -/
def normalize [Add F] [Mul F] [Div F] [Zero F] [LT F] [∀ a b : F, Decidable (a < b)]
    (sqrt : F → F) (self : vector4 F) : vector4 F :=
  let len := self.length sqrt
  if len > 0 then div_assign_scalar self len else self

/-- Source `distance`. -/
def distance [Add F] [Sub F] [Mul F] (sqrt : F → F) (self other : vector4 F) : F :=
  (other - self).length sqrt

/-- Source `lerp`. -/
def lerp [Add F] [Sub F] [Mul F] (a b : vector4 F) (t : F) : vector4 F :=
  a + (b - a) * t

/-- Source `clamp`. -/
def clamp [LT F] [∀ a b : F, Decidable (a < b)] (v min max : vector4 F) : vector4 F :=
  ⟨std_clamp v.x min.x max.x, std_clamp v.y min.y max.y, std_clamp v.z min.z max.z, std_clamp v.w min.w max.w⟩

end vector4

/-! ## Facts about binary32 arithmetic -/

namespace F32

theorem beq_def (a b : F32) : (a == b) = eq a b := rfl

theorem zero_def : (0 : F32) = fin false 0 := rfl

theorem one_def : (1 : F32) = fin false (2 ^ 149) := rfl

theorem neg_def (a : F32) : -a = neg a := rfl

theorem add_def (a b : F32) : a + b = add a b := rfl

theorem sub_def (a b : F32) : a - b = add a (neg b) := rfl

theorem mul_def (a b : F32) : a * b = mul a b := rfl

theorem lt_def (a b : F32) : (a < b) = (lt a b = true) := rfl

theorem neg_fin (s : Bool) (n : Nat) : neg (fin s n) = fin (!s) n := rfl

/-- Rounding leaves a magnitude that already has a 24-bit significand unchanged. -/
theorem roundMag_exact (n q : Nat) (hq : 0 < q) (h : n % 2 ^ ulpExp n = 0) :
    roundMag (n * q) q = n := by
  unfold roundMag
  have h1 : n * q / q = n := Nat.mul_div_cancel n hq
  simp only [h1]
  obtain ⟨k, hk⟩ := Nat.dvd_of_mod_eq_zero h
  have hd : 0 < q * 2 ^ ulpExp n := Nat.mul_pos hq (Nat.two_pow_pos _)
  have h2 : n * q = k * (q * 2 ^ ulpExp n) := by
    conv_lhs => rw [hk]
    ring
  have h3 : n * q / (q * 2 ^ ulpExp n) = k := by rw [h2]; exact Nat.mul_div_cancel k hd
  have h4 : n * q % (q * 2 ^ ulpExp n) = 0 := by rw [h2]; exact Nat.mul_mod_left k _
  rw [h3, h4]
  simp only [Nat.mul_zero, hd, if_true]
  rw [Nat.mul_comm]; exact hk.symm

theorem round_exact (s : Bool) (n q : Nat) (hq : 0 < q) (h : repr n) :
    round s (n * q) q = fin s n := by
  unfold round
  simp only [roundMag_exact n q hq h.2, h.1, if_true]

theorem round_zero (s : Bool) (q : Nat) (hq : 0 < q) : round s 0 q = fin s 0 := by
  have := round_exact s 0 q hq (by decide)
  simpa using this

theorem neg_round (s : Bool) (p q : Nat) : neg (round s p q) = round (!s) p q := by
  unfold round
  by_cases h : roundMag p q ≤ maxMag <;> simp [h, neg]

theorem isNaN_round (s : Bool) (p q : Nat) : isNaN (round s p q) = false := by
  unfold round
  by_cases h : roundMag p q ≤ maxMag <;> simp [h, isNaN]

theorem eq_self (a : F32) : eq a a = !isNaN a := by
  cases a <;> simp [eq, isNaN]

theorem eq_round_self (s : Bool) (p q : Nat) : eq (round s p q) (round s p q) = true := by
  simp [eq_self, isNaN_round]

theorem isNaN_of_isFinite {a : F32} (h : isFinite a = true) : isNaN a = false := by
  cases a <;> simp_all [isFinite, isNaN]

theorem mul_comm (a b : F32) : a * b = b * a := by
  show mul a b = mul b a
  cases a <;> cases b <;> simp [mul, Bool.xor_comm, Nat.mul_comm]

theorem mul_one (a : F32) (h : wf a = true) : a * 1 = a := by
  show mul a (fin false (2 ^ 149)) = a
  cases a with
  | nan => rfl
  | inf s => simp [mul]
  | fin s n =>
    simp only [mul, Bool.xor_false]
    exact round_exact s n _ (by positivity) (by simpa [wf] using h)

theorem fin_mul_zero (s : Bool) (n : Nat) : fin s n * 0 = fin s 0 := by
  show mul (fin s n) (fin false 0) = fin s 0
  simp only [mul, Bool.xor_false, Nat.mul_zero]
  exact round_zero s _ (by positivity)

theorem mul_zero_eq (a : F32) (h : isFinite a = true) : eq (a * 0) 0 = true := by
  cases a with
  | nan => simp [isFinite] at h
  | inf s => simp [isFinite] at h
  | fin s n => rw [fin_mul_zero]; simp [zero_def, eq]

theorem add_neg_self (a : F32) (h : isFinite a = true) : a + -a = 0 := by
  cases a with
  | nan => simp [isFinite] at h
  | inf s => simp [isFinite] at h
  | fin s n =>
    show add (fin s n) (neg (fin s n)) = fin false 0
    cases s <;> simp [add, neg]

/-- Adding a zero of either sign to a binary32 value gives a value that compares equal. -/
theorem add_zero_eq (s t : Bool) (n : Nat) (h : repr n) :
    eq (fin s n + fin t 0) (fin s n) = true := by
  show eq (add (fin s n) (fin t 0)) (fin s n) = true
  have hr : round s n 1 = fin s n := by simpa using round_exact s n 1 (by decide) h
  by_cases hst : s = t
  · simp [add, hst.symm, hr, eq]
  · rcases Nat.eq_zero_or_pos n with h0 | h0
    · subst h0
      simp [add, hst, eq]
    · simp [add, hst, h0, hr, eq]

/-- One component of `lerp(a, b, 0.0)`: a finite `float` plus a finite difference
times `0.0` compares equal to itself. -/
theorem add_mul_zero_eq (a d : F32) (hw : wf a = true) (ha : isFinite a = true)
    (hd : isFinite d = true) : eq (a + d * 0) a = true := by
  cases a with
  | nan => simp [isFinite] at ha
  | inf s => simp [isFinite] at ha
  | fin s n =>
    cases d with
    | nan => simp [isFinite] at hd
    | inf t => simp [isFinite] at hd
    | fin t k =>
      rw [fin_mul_zero]
      exact add_zero_eq s t n (by simpa [wf] using hw)

theorem lt_irrefl (a : F32) : ¬ a < a := by
  show ¬ lt a a = true
  cases a with
  | nan => simp [lt]
  | inf s => cases s <;> simp [lt]
  | fin s n => cases s <;> simp [lt]

/-- Swapping the operands of a subtraction negates the result, up to the sign of zero. -/
theorem sub_eq_neg_sub (p q : F32) (h : isNaN (p - q) = false) :
    eq (p - q) (-(q - p)) = true := by
  revert h
  show isNaN (add p (neg q)) = false → eq (add p (neg q)) (neg (add q (neg p))) = true
  cases p with
  | nan => simp [add, isNaN]
  | inf s =>
    cases q with
    | nan => cases s <;> simp [add, neg, isNaN]
    | inf t => cases s <;> cases t <;> simp [add, neg, isNaN, eq]
    | fin t k => cases s <;> simp [add, neg, isNaN, eq]
  | fin s n =>
    cases q with
    | nan => simp [add, neg, isNaN]
    | inf t => cases t <;> simp [add, neg, isNaN, eq]
    | fin t k =>
      intro _
      rcases Nat.lt_trichotomy n k with h | h | h
      · have h' : ¬ k < n := by omega
        cases s <;> cases t <;>
          simp [add, neg_fin, h, h', neg_round, eq_round_self, Nat.add_comm]
      · subst h
        cases s <;> cases t <;> simp [add, neg_fin, neg_round, eq_round_self] <;> simp [eq]
      · have h' : ¬ n < k := by omega
        cases s <;> cases t <;>
          simp [add, neg_fin, h, h', neg_round, eq_round_self, Nat.add_comm]

/-! ### Rounding returns binary32 values -/

theorem ilog2Fuel_spec (k : Nat) : ∀ n : Nat, n ≤ k → n ≠ 0 →
    2 ^ ilog2Fuel k n ≤ n ∧ n < 2 ^ (ilog2Fuel k n + 1) := by
  induction k with
  | zero => intro n h h0; omega
  | succ k ih =>
    intro n h h0
    unfold ilog2Fuel
    by_cases h2 : n < 2
    · simp only [h2, if_true]
      omega
    · simp only [h2, if_false]
      have hk : n / 2 ≤ k := by omega
      have hz : n / 2 ≠ 0 := by omega
      obtain ⟨a, b⟩ := ih (n / 2) hk hz
      rw [pow_succ, pow_succ]
      rw [pow_succ] at b
      constructor <;> omega

theorem ilog2_spec (n : Nat) (h0 : n ≠ 0) : 2 ^ ilog2 n ≤ n ∧ n < 2 ^ (ilog2 n + 1) :=
  ilog2Fuel_spec n n (Nat.le_refl n) h0

theorem ilog2_unique (n L : Nat) (h1 : 2 ^ L ≤ n) (h2 : n < 2 ^ (L + 1)) : ilog2 n = L := by
  have h0 : n ≠ 0 := by
    have : 0 < 2 ^ L := Nat.two_pow_pos L
    omega
  obtain ⟨a, b⟩ := ilog2_spec n h0
  have c1 : ilog2 n < L + 1 := (Nat.pow_lt_pow_iff_right (by norm_num : 1 < 2)).1 (lt_of_le_of_lt a h2)
  have c2 : L < ilog2 n + 1 := (Nat.pow_lt_pow_iff_right (by norm_num : 1 < 2)).1 (lt_of_le_of_lt h1 b)
  omega


theorem roundMag_cases (p q : Nat) :
    roundMag p q = p / q / 2 ^ ulpExp (p / q) * 2 ^ ulpExp (p / q) ∨
    roundMag p q = (p / q / 2 ^ ulpExp (p / q) + 1) * 2 ^ ulpExp (p / q) := by
  unfold roundMag
  simp only [Nat.div_div_eq_div_mul]
  split_ifs <;> simp

theorem ulpExp_of_lt {f : Nat} (h : f < 2 ^ 24) : ulpExp f = 0 := by
  rw [ulpExp, if_pos h]

theorem ulpExp_of_ge {f : Nat} (h : ¬ f < 2 ^ 24) : ulpExp f = ilog2 f - 23 := by
  rw [ulpExp, if_neg h]

set_option maxRecDepth 100000 in
theorem ulpExp_two_pow_24 : ulpExp (2 ^ 24) = 1 := by decide

/-- A magnitude `m1 * 2^e` with `2^23 ≤ m1 ≤ 2^24` and `1 ≤ e` is a multiple of its own
unit in the last place. -/
theorem ulpExp_dvd_scaled (m1 e : Nat) (hlo : 2 ^ 23 ≤ m1) (hhi : m1 ≤ 2 ^ 24) (he : 1 ≤ e) :
    m1 * 2 ^ e % 2 ^ ulpExp (m1 * 2 ^ e) = 0 := by
  have hpos : 0 < 2 ^ e := Nat.two_pow_pos e
  have h2e : 2 ≤ 2 ^ e := by
    calc 2 = 2 ^ 1 := by norm_num
      _ ≤ 2 ^ e := Nat.pow_le_pow_right (by norm_num) he
  have hge : ¬ m1 * 2 ^ e < 2 ^ 24 := by
    have : 2 ^ 23 * 2 ≤ m1 * 2 ^ e := Nat.mul_le_mul hlo h2e
    omega
  rw [ulpExp_of_ge hge]
  rcases Nat.lt_or_ge m1 (2 ^ 24) with h | h
  · have hL : ilog2 (m1 * 2 ^ e) = e + 23 := by
      apply ilog2_unique
      · rw [pow_add, Nat.mul_comm]
        exact Nat.mul_le_mul hlo (Nat.le_refl _)
      · have : e + 23 + 1 = 24 + e := by omega
        rw [this, pow_add]
        exact Nat.mul_lt_mul_of_pos_right h hpos
    rw [hL, Nat.add_sub_cancel]
    exact Nat.mul_mod_left _ _
  · have hm : m1 = 2 ^ 24 := Nat.le_antisymm hhi h
    subst hm
    have hn : 2 ^ 24 * 2 ^ e = 2 ^ (e + 24) := by rw [pow_add, Nat.mul_comm]
    have hL : ilog2 (2 ^ 24 * 2 ^ e) = e + 24 := by
      apply ilog2_unique
      · rw [hn]
      · rw [hn]
        exact Nat.pow_lt_pow_right (by norm_num) (by omega)
    rw [hL, hn]
    have : e + 24 = (e + 24 - 23) + 23 := by omega
    conv_lhs => lhs; rw [this, pow_add]
    exact Nat.mul_mod_right _ _

/-- What rounding returns is a multiple of its own unit in the last place. -/
theorem ulpExp_dvd_roundMag (p q : Nat) :
    roundMag p q % 2 ^ ulpExp (roundMag p q) = 0 := by
  by_cases hf : p / q < 2 ^ 24
  · have he := ulpExp_of_lt hf
    have hc := roundMag_cases p q
    rw [he] at hc
    simp only [pow_zero, Nat.div_one, Nat.mul_one] at hc
    by_cases hn : roundMag p q < 2 ^ 24
    · rw [ulpExp_of_lt hn, pow_zero]
      exact Nat.mod_one _
    · have h24 : roundMag p q = 2 ^ 24 := by omega
      rw [h24, ulpExp_two_pow_24]
      norm_num
  · have he := ulpExp_of_ge hf
    have h0 : p / q ≠ 0 := by
      intro h
      rw [h] at hf
      exact hf (by norm_num)
    obtain ⟨a, b⟩ := ilog2_spec (p / q) h0
    have hL : 24 ≤ ilog2 (p / q) := by
      have : 2 ^ 24 < 2 ^ (ilog2 (p / q) + 1) := lt_of_le_of_lt (Nat.le_of_not_lt hf) b
      have := (Nat.pow_lt_pow_iff_right (by norm_num : 1 < 2)).1 this
      omega
    have hLL : ilog2 (p / q) = ulpExp (p / q) + 23 := by omega
    have he1 : 1 ≤ ulpExp (p / q) := by omega
    rw [hLL] at a b
    have hpos : 0 < 2 ^ ulpExp (p / q) := Nat.two_pow_pos _
    have hlo : 2 ^ 23 ≤ p / q / 2 ^ ulpExp (p / q) := by
      rw [Nat.le_div_iff_mul_le hpos, ← pow_add, Nat.add_comm]
      exact a
    have hhi : p / q / 2 ^ ulpExp (p / q) < 2 ^ 24 := by
      rw [Nat.div_lt_iff_lt_mul hpos, ← pow_add]
      have : 24 + ulpExp (p / q) = ulpExp (p / q) + 23 + 1 := by omega
      rw [this]
      exact b
    rcases roundMag_cases p q with hc | hc
    · rw [hc]
      exact ulpExp_dvd_scaled _ _ hlo (Nat.le_of_lt hhi) he1
    · rw [hc]
      exact ulpExp_dvd_scaled _ _ (by omega) (by omega) he1

/-- Rounding returns a binary32 value. -/
theorem wf_round (s : Bool) (p q : Nat) : wf (round s p q) = true := by
  unfold round
  by_cases h : roundMag p q ≤ maxMag
  · simp only [h, if_true, wf, decide_eq_true_eq]
    exact ⟨h, ulpExp_dvd_roundMag p q⟩
  · simp only [h, if_false, wf]

theorem wf_neg (a : F32) (h : wf a = true) : wf (-a) = true := by
  cases a <;> simp_all [neg_def, neg, wf]

theorem wf_add (a b : F32) : wf (a + b) = true := by
  show wf (add a b) = true
  cases a <;> cases b <;> simp only [add] <;> (try split_ifs) <;>
    first | exact wf_round _ _ _ | rfl

theorem wf_sub (a b : F32) : wf (a - b) = true := by
  rw [sub_def]
  exact wf_add a (neg b)

theorem wf_mul (a b : F32) : wf (a * b) = true := by
  show wf (mul a b) = true
  cases a <;> cases b <;> simp only [mul] <;> (try split_ifs) <;>
    first | exact wf_round _ _ _ | rfl

theorem wf_div (a b : F32) : wf (a / b) = true := by
  show wf (div a b) = true
  cases a <;> cases b <;> simp only [div] <;> (try split_ifs) <;>
    first | exact wf_round _ _ _ | rfl

/-! ### Order, swapped differences, division by zero -/

theorem le_def (a b : F32) : (a ≤ b) = (le a b = true) := rfl

theorem div_def (a b : F32) : a / b = div a b := rfl

theorem isNaN_of_le {a b : F32} (h : le a b = true) : isNaN a = false ∧ isNaN b = false := by
  cases a <;> cases b <;> simp_all [le, lt, eq, isNaN]

theorem le_self (a : F32) (h : isNaN a = false) : le a a = true := by
  simp [le, eq_self, h]

/-- Two `float`s that are not NaN are comparable. -/
theorem lt_or_le (a b : F32) (ha : isNaN a = false) (hb : isNaN b = false) :
    lt a b = true ∨ le b a = true := by
  cases a with
  | nan => simp [isNaN] at ha
  | inf s =>
    cases b with
    | nan => simp [isNaN] at hb
    | inf t => cases s <;> cases t <;> simp [le, lt, eq]
    | fin t k => cases s <;> simp [le, lt, eq]
  | fin s n =>
    cases b with
    | nan => simp [isNaN] at hb
    | inf t => cases t <;> simp [le, lt, eq]
    | fin t k =>
      cases s <;> cases t <;> simp [le, lt, eq] <;> omega

/-- The comparison `<=` excludes the converse `<`. -/
theorem not_lt_of_le (a b : F32) (h : le a b = true) : lt b a = false := by
  cases a with
  | nan => simp [le, lt, eq] at h
  | inf s =>
    cases b with
    | nan => simp [le, lt, eq] at h
    | inf t => cases s <;> cases t <;> simp_all [le, lt, eq]
    | fin t k => cases s <;> simp_all [le, lt, eq]
  | fin s n =>
    cases b with
    | nan => simp [le, lt, eq] at h
    | inf t => cases t <;> simp_all [le, lt, eq]
    | fin t k =>
      revert h
      cases s <;> cases t <;> simp [le, lt, eq] <;> omega

theorem mul_neg_neg (x : F32) : neg x * neg x = x * x := by
  show mul (neg x) (neg x) = mul x x
  cases x with
  | nan => rfl
  | inf s => cases s <;> rfl
  | fin s n => cases s <;> rfl

/-- Swapping the operands of a subtraction either negates the result or, when the
difference is an exact zero, leaves it as it is. -/
theorem sub_swap (p q : F32) : p - q = neg (q - p) ∨ p - q = q - p := by
  show add p (neg q) = neg (add q (neg p)) ∨ add p (neg q) = add q (neg p)
  cases p with
  | nan => cases q <;> simp [add, neg]
  | inf s =>
    cases q with
    | nan => simp [add, neg]
    | inf t => cases s <;> cases t <;> simp [add, neg]
    | fin t k => cases s <;> simp [add, neg]
  | fin s n =>
    cases q with
    | nan => simp [add, neg]
    | inf t => cases t <;> simp [add, neg]
    | fin t k =>
      rcases Nat.lt_trichotomy n k with h | h | h
      · have h' : ¬ k < n := by omega
        cases s <;> cases t <;>
          simp [add, neg_fin, h, h', neg_round, Nat.add_comm]
      · subst h
        cases s <;> cases t <;> simp [add, neg_fin, neg_round]
      · have h' : ¬ n < k := by omega
        cases s <;> cases t <;>
          simp [add, neg_fin, h, h', neg_round, Nat.add_comm]

/-- The square of a difference does not depend on the order of the operands. -/
theorem sq_sub_swap (p q : F32) : (p - q) * (p - q) = (q - p) * (q - p) := by
  rcases sub_swap p q with h | h
  · rw [h, mul_neg_neg]
  · rw [h]

theorem zero_mul_fin (s : Bool) (n : Nat) : 0 * fin s n = fin s 0 := by
  rw [mul_comm, fin_mul_zero]

theorem isNaN_mul_of_finite (a b : F32) (ha : isFinite a = true) (hb : isFinite b = true) :
    isNaN (a * b) = false := by
  cases a with
  | nan => simp [isFinite] at ha
  | inf s => simp [isFinite] at ha
  | fin s n =>
    cases b with
    | nan => simp [isFinite] at hb
    | inf t => simp [isFinite] at hb
    | fin t k => exact isNaN_round _ _ _

/-- For finite `a` and `b`, `a * 0.0 - 0.0 * b` is a zero. -/
theorem mul_zero_sub_zero_mul (a b : F32) (ha : isFinite a = true) (hb : isFinite b = true) :
    eq (a * 0 - 0 * b) 0 = true := by
  cases a with
  | nan => simp [isFinite] at ha
  | inf s => simp [isFinite] at ha
  | fin s n =>
    cases b with
    | nan => simp [isFinite] at hb
    | inf t => simp [isFinite] at hb
    | fin t k =>
      rw [fin_mul_zero, zero_mul_fin]
      cases s <;> cases t <;> decide

/-- For finite `a` and `b`, `0.0 * b - a * 0.0` is a zero. -/
theorem zero_mul_sub_mul_zero (a b : F32) (ha : isFinite a = true) (hb : isFinite b = true) :
    eq (0 * b - a * 0) 0 = true := by
  cases a with
  | nan => simp [isFinite] at ha
  | inf s => simp [isFinite] at ha
  | fin s n =>
    cases b with
    | nan => simp [isFinite] at hb
    | inf t => simp [isFinite] at hb
    | fin t k =>
      rw [fin_mul_zero, zero_mul_fin]
      cases s <;> cases t <;> decide

/-- Dividing by a zero of either sign gives an infinity or NaN. -/
theorem div_zero (a : F32) (s : Bool) :
    (isInf (a / fin s 0) || isNaN (a / fin s 0)) = true := by
  show (isInf (div a (fin s 0)) || isNaN (div a (fin s 0))) = true
  cases a with
  | nan => simp [div, isInf, isNaN]
  | inf t => simp [div, isInf, isNaN]
  | fin t n =>
    by_cases h : n = 0
    · simp [div, h, isInf, isNaN]
    · simp [div, h, isInf, isNaN]

theorem sub_self (a : F32) (h : isFinite a = true) : a - a = 0 := add_neg_self a h

end F32

/-! ## Unfolding the vector operators -/

theorem vector2_add_def {F : Type} [Add F] (a b : vector2 F) :
    a + b = ⟨a.x + b.x, a.y + b.y⟩ := rfl

theorem vector2_sub_def {F : Type} [Sub F] (a b : vector2 F) :
    a - b = ⟨a.x - b.x, a.y - b.y⟩ := rfl

theorem vector2_neg_def {F : Type} [Neg F] (a : vector2 F) : -a = ⟨-a.x, -a.y⟩ := rfl

theorem vector2_mul_scalar_def {F : Type} [Mul F] (v : vector2 F) (s : F) :
    v * s = ⟨v.x * s, v.y * s⟩ := rfl

theorem vector2_div_scalar_def {F : Type} [Div F] (v : vector2 F) (s : F) :
    v / s = ⟨v.x / s, v.y / s⟩ := rfl

/-- When the length is positive, `normalize()` stores what `normalized()` returns. -/
theorem vector2_normalize_eq_normalized_of_pos {F : Type} [Add F] [Mul F] [Div F] [Zero F]
    [LT F] [∀ a b : F, Decidable (a < b)] (sqrt : F → F) (v : vector2 F)
    (h : v.length sqrt > 0) : v.normalize sqrt = v.normalized sqrt := by
  simp only [vector2.normalize, vector2.normalized, h, if_true]
  rfl

theorem vector3_add_def {F : Type} [Add F] (a b : vector3 F) :
    a + b = ⟨a.x + b.x, a.y + b.y, a.z + b.z⟩ := rfl

theorem vector3_sub_def {F : Type} [Sub F] (a b : vector3 F) :
    a - b = ⟨a.x - b.x, a.y - b.y, a.z - b.z⟩ := rfl

theorem vector3_neg_def {F : Type} [Neg F] (a : vector3 F) : -a = ⟨-a.x, -a.y, -a.z⟩ := rfl

theorem vector3_mul_scalar_def {F : Type} [Mul F] (v : vector3 F) (s : F) :
    v * s = ⟨v.x * s, v.y * s, v.z * s⟩ := rfl

theorem vector3_div_scalar_def {F : Type} [Div F] (v : vector3 F) (s : F) :
    v / s = ⟨v.x / s, v.y / s, v.z / s⟩ := rfl

/-- When the length is positive, `normalize()` stores what `normalized()` returns. -/
theorem vector3_normalize_eq_normalized_of_pos {F : Type} [Add F] [Mul F] [Div F] [Zero F]
    [LT F] [∀ a b : F, Decidable (a < b)] (sqrt : F → F) (v : vector3 F)
    (h : v.length sqrt > 0) : v.normalize sqrt = v.normalized sqrt := by
  simp only [vector3.normalize, vector3.normalized, h, if_true]
  rfl

theorem vector4_add_def {F : Type} [Add F] (a b : vector4 F) :
    a + b = ⟨a.x + b.x, a.y + b.y, a.z + b.z, a.w + b.w⟩ := rfl

theorem vector4_sub_def {F : Type} [Sub F] (a b : vector4 F) :
    a - b = ⟨a.x - b.x, a.y - b.y, a.z - b.z, a.w - b.w⟩ := rfl

theorem vector4_neg_def {F : Type} [Neg F] (a : vector4 F) : -a = ⟨-a.x, -a.y, -a.z, -a.w⟩ := rfl

theorem vector4_mul_scalar_def {F : Type} [Mul F] (v : vector4 F) (s : F) :
    v * s = ⟨v.x * s, v.y * s, v.z * s, v.w * s⟩ := rfl

theorem vector4_div_scalar_def {F : Type} [Div F] (v : vector4 F) (s : F) :
    v / s = ⟨v.x / s, v.y / s, v.z / s, v.w / s⟩ := rfl

/-- When the length is positive, `normalize()` stores what `normalized()` returns. -/
theorem vector4_normalize_eq_normalized_of_pos {F : Type} [Add F] [Mul F] [Div F] [Zero F]
    [LT F] [∀ a b : F, Decidable (a < b)] (sqrt : F → F) (v : vector4 F)
    (h : v.length sqrt > 0) : v.normalize sqrt = v.normalized sqrt := by
  simp only [vector4.normalize, vector4.normalized, h, if_true]
  rfl

/-! ## Facts about the clamp primitive -/

/-- On bounds with `hi` not less than `lo`, `std::clamp` returns what C++17
[alg.clamp] specifies. -/
theorem std_clamp_eq_of_ordered {F : Type} [LT F] [∀ a b : F, Decidable (a < b)]
    (v lo hi : F) (h : ¬ hi < lo) :
    std_clamp v lo hi = if v < lo then lo else if hi < v then hi else v := by
  unfold std_clamp std_max std_min
  by_cases h1 : v < lo
  · simp [h1, h]
  · simp [h1]

/-- For `hi` less than `lo`, `std::clamp` returns `hi` for every `v` that is less than
`lo` or greater than `hi`. -/
theorem std_clamp_of_inverted {F : Type} [LT F] [∀ a b : F, Decidable (a < b)]
    (v lo hi : F) (h : hi < lo) (hv : v < lo ∨ hi < v) :
    std_clamp v lo hi = hi := by
  unfold std_clamp std_max std_min
  by_cases h1 : v < lo
  · simp [h1, h]
  · rcases hv with hv | hv
    · exact absurd hv h1
    · simp [h1, hv]

/-- Clamping twice is clamping once, on any bounds, for any comparison that is
irreflexive. -/
theorem std_clamp_idem {F : Type} [LT F] [∀ a b : F, Decidable (a < b)]
    (irr : ∀ a : F, ¬ a < a) (v lo hi : F) :
    std_clamp (std_clamp v lo hi) lo hi = std_clamp v lo hi := by
  unfold std_clamp std_max std_min
  by_cases h1 : v < lo
  · by_cases h : hi < lo
    · simp [h1, h]
    · simp [h1, h, irr]
  · by_cases h2 : hi < v
    · by_cases h : hi < lo
      · simp [h1, h2, h]
      · simp [h1, h2, h, irr]
    · simp [h1, h2]

/-- On ordered bounds, clamping a `float` that is not NaN gives a value within the
bounds. -/
theorem std_clamp_bounds (v lo hi : F32) (h : lo ≤ hi) (hv : F32.isNaN v = false) :
    lo ≤ std_clamp v lo hi ∧ std_clamp v lo hi ≤ hi := by
  have hb := F32.isNaN_of_le h
  have ho : ¬ hi < lo := by
    rw [F32.lt_def, F32.not_lt_of_le lo hi h]
    simp
  rw [std_clamp_eq_of_ordered v lo hi ho]
  by_cases h1 : v < lo
  · simp only [h1, if_true]
    exact ⟨F32.le_self lo hb.1, h⟩
  · by_cases h2 : hi < v
    · simp only [h1, h2, if_true, if_false]
      exact ⟨h, F32.le_self hi hb.2⟩
    · simp only [h1, h2, if_false]
      constructor
      · rcases F32.lt_or_le v lo hv hb.1 with h3 | h3
        · exact absurd h3 h1
        · exact h3
      · rcases F32.lt_or_le hi v hb.2 hv with h3 | h3
        · exact absurd h3 h2
        · exact h3

/-- Clamping a `float` that lies within the bounds returns it. -/
theorem std_clamp_of_mem (v lo hi : F32) (h1 : lo ≤ v) (h2 : v ≤ hi) :
    std_clamp v lo hi = v := by
  have n1 : ¬ v < lo := by
    rw [F32.lt_def, F32.not_lt_of_le lo v h1]
    simp
  have n2 : ¬ hi < v := by
    rw [F32.lt_def, F32.not_lt_of_le v hi h2]
    simp
  simp only [std_clamp, std_max, std_min, n1, n2, if_false]

/-! ## Facts about the output stream -/

/-- Over the reals, the normalisation of a `vector2` of positive length has length `1`. -/
theorem vector2_length_normalized_real (v : vector2 ℝ) (h : v.length Real.sqrt > 0) :
    (v.normalized Real.sqrt).length Real.sqrt = 1 := by
  revert v
  rintro ⟨x, y⟩ h
  simp only [vector2.normalized, h, if_true]
  simp only [vector2.length, vector2.length_squared, vector2.dot, vector2_div_scalar_def]
    at h ⊢
  have hL : √(x * x + y * y) * √(x * x + y * y) = x * x + y * y :=
    Real.mul_self_sqrt (add_nonneg (mul_self_nonneg x) (mul_self_nonneg y))
  have h1 : x / √(x * x + y * y) * (x / √(x * x + y * y))
      + y / √(x * x + y * y) * (y / √(x * x + y * y)) = 1 := by
    field_simp
    linarith
  rw [h1, Real.sqrt_one]

/-- Over the reals, the normalisation of a `vector3` of positive length has length `1`. -/
theorem vector3_length_normalized_real (v : vector3 ℝ) (h : v.length Real.sqrt > 0) :
    (v.normalized Real.sqrt).length Real.sqrt = 1 := by
  revert v
  rintro ⟨x, y, z⟩ h
  simp only [vector3.normalized, h, if_true]
  simp only [vector3.length, vector3.length_squared, vector3.dot, vector3_div_scalar_def]
    at h ⊢
  have hL : √(x * x + y * y + z * z) * √(x * x + y * y + z * z)
      = x * x + y * y + z * z :=
    Real.mul_self_sqrt
      (add_nonneg (add_nonneg (mul_self_nonneg x) (mul_self_nonneg y)) (mul_self_nonneg z))
  have h1 : x / √(x * x + y * y + z * z) * (x / √(x * x + y * y + z * z))
      + y / √(x * x + y * y + z * z) * (y / √(x * x + y * y + z * z))
      + z / √(x * x + y * y + z * z) * (z / √(x * x + y * y + z * z)) = 1 := by
    field_simp
    linarith
  rw [h1, Real.sqrt_one]

/-- Over the reals, the normalisation of a `vector4` of positive length has length `1`. -/
theorem vector4_length_normalized_real (v : vector4 ℝ) (h : v.length Real.sqrt > 0) :
    (v.normalized Real.sqrt).length Real.sqrt = 1 := by
  revert v
  rintro ⟨x, y, z, w⟩ h
  simp only [vector4.normalized, h, if_true]
  simp only [vector4.length, vector4.length_squared, vector4.dot, vector4_div_scalar_def]
    at h ⊢
  have hL : √(x * x + y * y + z * z + w * w) * √(x * x + y * y + z * z + w * w)
      = x * x + y * y + z * z + w * w :=
    Real.mul_self_sqrt
      (add_nonneg (add_nonneg (add_nonneg (mul_self_nonneg x) (mul_self_nonneg y))
        (mul_self_nonneg z)) (mul_self_nonneg w))
  have h1 : x / √(x * x + y * y + z * z + w * w) * (x / √(x * x + y * y + z * z + w * w))
      + y / √(x * x + y * y + z * z + w * w) * (y / √(x * x + y * y + z * z + w * w))
      + z / √(x * x + y * y + z * z + w * w) * (z / √(x * x + y * y + z * z + w * w))
      + w / √(x * x + y * y + z * z + w * w) * (w / √(x * x + y * y + z * z + w * w))
      = 1 := by
    field_simp
    linarith
  rw [h1, Real.sqrt_one]

/-! ## Normalisation -/

set_option maxRecDepth 100000

/-- C1. For each arity, `normalized()` returns the exact zero vector for every vector
whose `length()` is not greater than `0.0f`; for the zero vector `z`,
`normalized(z) == z` and `normalize()` leaves `z` unchanged. -/
theorem normalized_degenerate_is_zero :
    ((∀ v : vector2 F32, ¬ (v.length F32.sqrt > 0) →
        v.normalized F32.sqrt = vector2.zero) ∧
      ((vector2.zero : vector2 F32).normalized F32.sqrt).eq vector2.zero = true ∧
      (vector2.zero : vector2 F32).normalize F32.sqrt = vector2.zero) ∧
    ((∀ v : vector3 F32, ¬ (v.length F32.sqrt > 0) →
        v.normalized F32.sqrt = vector3.zero) ∧
      ((vector3.zero : vector3 F32).normalized F32.sqrt).eq vector3.zero = true ∧
      (vector3.zero : vector3 F32).normalize F32.sqrt = vector3.zero) ∧
    ((∀ v : vector4 F32, ¬ (v.length F32.sqrt > 0) →
        v.normalized F32.sqrt = vector4.zero) ∧
      ((vector4.zero : vector4 F32).normalized F32.sqrt).eq vector4.zero = true ∧
      (vector4.zero : vector4 F32).normalize F32.sqrt = vector4.zero) := by
  refine ⟨⟨?_, by decide, by decide⟩, ⟨?_, by decide, by decide⟩, ⟨?_, by decide, by decide⟩⟩
  · intro v h
    simp only [vector2.normalized, h, if_false, vector2.zero]
  · intro v h
    simp only [vector3.normalized, h, if_false, vector3.zero]
  · intro v h
    simp only [vector4.normalized, h, if_false, vector4.zero]

/-- The vector `(2^-100, 0)` has a squared length that underflows to zero, and a vector
with a NaN component has a NaN length: both are degenerate and `normalized()` maps
them to zero. -/
theorem normalized_degenerate_is_zero_witness :
    (¬ ((⟨F32.fin false (2 ^ 49), 0⟩ : vector2 F32).length F32.sqrt > 0) ∧
      (⟨F32.fin false (2 ^ 49), 0⟩ : vector2 F32).normalized F32.sqrt = vector2.zero) ∧
    (¬ ((⟨F32.nan, 1, 0⟩ : vector3 F32).length F32.sqrt > 0) ∧
      (⟨F32.nan, 1, 0⟩ : vector3 F32).normalized F32.sqrt = vector3.zero) :=
  ⟨⟨by decide, normalized_degenerate_is_zero.1.1 _ (by decide)⟩,
   ⟨by decide, normalized_degenerate_is_zero.2.1.1 _ (by decide)⟩⟩

/-- C2. The vector with `x = 2^-100` and the other components zero is made of finite
binary32 values, and its squared length underflows to `0.0f`.  On it `normalize()`
leaves `*this` as it is, `normalized()` returns the zero vector, and the two results
do not compare equal; the same holds for each arity. -/
theorem normalize_keeps_underflowing_vector :
    ((⟨F32.fin false (2 ^ 49), 0⟩ : vector2 F32).all F32.wf = true ∧
      (⟨F32.fin false (2 ^ 49), 0⟩ : vector2 F32).all F32.isFinite = true ∧
      (⟨F32.fin false (2 ^ 49), 0⟩ : vector2 F32).length F32.sqrt = 0 ∧
      (⟨F32.fin false (2 ^ 49), 0⟩ : vector2 F32).normalize F32.sqrt
        = ⟨F32.fin false (2 ^ 49), 0⟩ ∧
      (⟨F32.fin false (2 ^ 49), 0⟩ : vector2 F32).normalized F32.sqrt = ⟨0, 0⟩ ∧
      ((⟨F32.fin false (2 ^ 49), 0⟩ : vector2 F32).normalize F32.sqrt).eq
        ((⟨F32.fin false (2 ^ 49), 0⟩ : vector2 F32).normalized F32.sqrt) = false) ∧
    ((⟨F32.fin false (2 ^ 49), 0, 0⟩ : vector3 F32).normalize F32.sqrt
        = ⟨F32.fin false (2 ^ 49), 0, 0⟩ ∧
      (⟨F32.fin false (2 ^ 49), 0, 0⟩ : vector3 F32).normalized F32.sqrt = ⟨0, 0, 0⟩ ∧
      ((⟨F32.fin false (2 ^ 49), 0, 0⟩ : vector3 F32).normalize F32.sqrt).eq
        ((⟨F32.fin false (2 ^ 49), 0, 0⟩ : vector3 F32).normalized F32.sqrt) = false) ∧
    ((⟨F32.fin false (2 ^ 49), 0, 0, 0⟩ : vector4 F32).normalize F32.sqrt
        = ⟨F32.fin false (2 ^ 49), 0, 0, 0⟩ ∧
      (⟨F32.fin false (2 ^ 49), 0, 0, 0⟩ : vector4 F32).normalized F32.sqrt = ⟨0, 0, 0, 0⟩ ∧
      ((⟨F32.fin false (2 ^ 49), 0, 0, 0⟩ : vector4 F32).normalize F32.sqrt).eq
        ((⟨F32.fin false (2 ^ 49), 0, 0, 0⟩ : vector4 F32).normalized F32.sqrt) = false) := by
  decide

/-- C3, as stated, fails on binary32: the vector `(2^64, 0)` has finite components and
the length `+∞ > 0`, since its squared length overflows; `normalized()` divides by that
length and returns the zero vector, whose length is `0`, not `1`. -/
theorem normalized_length_overflow :
    (⟨F32.fin false (2 ^ 213), 0⟩ : vector2 F32).all F32.wf = true ∧
    (⟨F32.fin false (2 ^ 213), 0⟩ : vector2 F32).all F32.isFinite = true ∧
    (⟨F32.fin false (2 ^ 213), 0⟩ : vector2 F32).length F32.sqrt = F32.inf false ∧
    (⟨F32.fin false (2 ^ 213), 0⟩ : vector2 F32).length F32.sqrt > 0 ∧
    (⟨F32.fin false (2 ^ 213), 0⟩ : vector2 F32).normalized F32.sqrt = ⟨0, 0⟩ ∧
    ((⟨F32.fin false (2 ^ 213), 0⟩ : vector2 F32).normalized F32.sqrt).length F32.sqrt
      = 0 := by
  decide

/-- C3, amended. In exact arithmetic (the reals, `std::sqrt` as the real square root),
for each arity and every vector `v` with `length(v) > 0`, the length of `normalized(v)`
is `1`. -/
theorem normalized_length_exact :
    (∀ v : vector2 ℝ, v.length Real.sqrt > 0 →
      (v.normalized Real.sqrt).length Real.sqrt = 1) ∧
    (∀ v : vector3 ℝ, v.length Real.sqrt > 0 →
      (v.normalized Real.sqrt).length Real.sqrt = 1) ∧
    (∀ v : vector4 ℝ, v.length Real.sqrt > 0 →
      (v.normalized Real.sqrt).length Real.sqrt = 1) :=
  ⟨vector2_length_normalized_real, vector3_length_normalized_real,
    vector4_length_normalized_real⟩

/-- The vector `(3, 4)` has the positive length `√25`, and its normalisation has
length `1`. -/
theorem normalized_length_exact_witness :
    (⟨3, 4⟩ : vector2 ℝ).length Real.sqrt > 0 ∧
    ((⟨3, 4⟩ : vector2 ℝ).normalized Real.sqrt).length Real.sqrt = 1 :=
  ⟨Real.sqrt_pos.mpr (by norm_num [vector2.length_squared, vector2.dot]),
   normalized_length_exact.1 ⟨3, 4⟩
     (Real.sqrt_pos.mpr (by norm_num [vector2.length_squared, vector2.dot]))⟩

/-! ## Clamp -/

/-- C4, as stated, fails on binary32: for `v = (NaN, 0)`, `lo = (0, 0)`, `hi = (1, 1)`,
with the bounds in order, `clamp(v, lo, hi)` is `(NaN, 0)`; clamping it again gives
`(NaN, 0)` again, and the two do not compare equal under `operator==`. -/
theorem clamp_not_idempotent :
    vector2.clamp (⟨F32.nan, 0⟩ : vector2 F32) ⟨0, 0⟩ ⟨1, 1⟩ = ⟨F32.nan, 0⟩ ∧
    vector2.clamp (vector2.clamp (⟨F32.nan, 0⟩ : vector2 F32) ⟨0, 0⟩ ⟨1, 1⟩) ⟨0, 0⟩ ⟨1, 1⟩
      = ⟨F32.nan, 0⟩ ∧
    (vector2.clamp (vector2.clamp ⟨F32.nan, 0⟩ ⟨0, 0⟩ ⟨1, 1⟩) ⟨0, 0⟩ ⟨1, 1⟩).eq
      (vector2.clamp (⟨F32.nan, 0⟩ : vector2 F32) ⟨0, 0⟩ ⟨1, 1⟩) = false := by
  decide

/-- C4, amended. For each arity and all vectors `v`, `lo`, `hi`, with no ordering
assumed between `lo` and `hi`: `clamp(clamp(v, lo, hi), lo, hi)` is the same vector as
`clamp(v, lo, hi)`, and compares `==` to it exactly when that vector has no NaN
component.  With the inverted bounds `lo = (5, 0)`, `hi = (1, 0)` and `v = (0, 0)`
both are `(1, 0)`. -/
theorem clamp_idempotent_value :
    (∀ v lo hi : vector2 F32,
      vector2.clamp (vector2.clamp v lo hi) lo hi = vector2.clamp v lo hi ∧
      (vector2.clamp (vector2.clamp v lo hi) lo hi).eq (vector2.clamp v lo hi)
        = (vector2.clamp v lo hi).all (fun c => !c.isNaN)) ∧
    (∀ v lo hi : vector3 F32,
      vector3.clamp (vector3.clamp v lo hi) lo hi = vector3.clamp v lo hi ∧
      (vector3.clamp (vector3.clamp v lo hi) lo hi).eq (vector3.clamp v lo hi)
        = (vector3.clamp v lo hi).all (fun c => !c.isNaN)) ∧
    (∀ v lo hi : vector4 F32,
      vector4.clamp (vector4.clamp v lo hi) lo hi = vector4.clamp v lo hi ∧
      (vector4.clamp (vector4.clamp v lo hi) lo hi).eq (vector4.clamp v lo hi)
        = (vector4.clamp v lo hi).all (fun c => !c.isNaN)) ∧
    (vector2.clamp (⟨0, 0⟩ : vector2 F32) ⟨F32.ofNat 5, 0⟩ ⟨1, 0⟩ = ⟨1, 0⟩ ∧
      vector2.clamp (vector2.clamp (⟨0, 0⟩ : vector2 F32) ⟨F32.ofNat 5, 0⟩ ⟨1, 0⟩)
        ⟨F32.ofNat 5, 0⟩ ⟨1, 0⟩ = ⟨1, 0⟩) := by
  refine ⟨?_, ?_, ?_, by decide, by decide⟩
  · intro v lo hi
    have e : vector2.clamp (vector2.clamp v lo hi) lo hi = vector2.clamp v lo hi := by
      simp only [vector2.clamp, std_clamp_idem F32.lt_irrefl]
    refine ⟨e, ?_⟩
    rw [e]
    simp [vector2.eq, vector2.all, F32.beq_def, F32.eq_self]
  · intro v lo hi
    have e : vector3.clamp (vector3.clamp v lo hi) lo hi = vector3.clamp v lo hi := by
      simp only [vector3.clamp, std_clamp_idem F32.lt_irrefl]
    refine ⟨e, ?_⟩
    rw [e]
    simp [vector3.eq, vector3.all, F32.beq_def, F32.eq_self]
  · intro v lo hi
    have e : vector4.clamp (vector4.clamp v lo hi) lo hi = vector4.clamp v lo hi := by
      simp only [vector4.clamp, std_clamp_idem F32.lt_irrefl]
    refine ⟨e, ?_⟩
    rw [e]
    simp [vector4.eq, vector4.all, F32.beq_def, F32.eq_self]

/-! ## Linear interpolation -/

/-- C5, as stated, fails on binary32.  At `t = 1.0` with `a = (2^26, 0)`, `b = (1, 0)`:
`b - a` rounds to `-2^26`, so `a + (b - a) * 1.0` is `(0, 0)`, not `b`.  At `t = 0.0`
with `a = (-max, 0)`, `b = (max, 0)`, `max` the largest finite `float`: `b - a`
overflows to `+∞`, `∞ * 0.0` is NaN, and the result does not compare equal to `a`. -/
theorem lerp_endpoints_fail :
    (vector2.lerp (⟨F32.fin false (2 ^ 175), 0⟩ : vector2 F32) ⟨1, 0⟩ 1 = ⟨0, 0⟩ ∧
      (vector2.lerp (⟨F32.fin false (2 ^ 175), 0⟩ : vector2 F32) ⟨1, 0⟩ 1).eq ⟨1, 0⟩
        = false) ∧
    (vector2.lerp (⟨F32.fin true F32.maxMag, 0⟩ : vector2 F32) ⟨F32.fin false F32.maxMag, 0⟩ 0
        = ⟨F32.nan, 0⟩ ∧
      (vector2.lerp (⟨F32.fin true F32.maxMag, 0⟩ : vector2 F32)
        ⟨F32.fin false F32.maxMag, 0⟩ 0).eq ⟨F32.fin true F32.maxMag, 0⟩ = false) ∧
    (⟨F32.fin false (2 ^ 175), 0⟩ : vector2 F32).all F32.wf = true ∧
    (⟨F32.fin false F32.maxMag, 0⟩ : vector2 F32).all F32.wf = true := by
  decide

/-- C5, amended. For each arity: on binary32, `lerp(a, b, 0.0) == a` for all vectors
`a`, `b` such that `a` has finite components and the difference `b - a` does not
overflow; in exact arithmetic (any ring `K`), `lerp(a, b, 0.0)` is `a` and
`lerp(a, b, 1.0)` is `b` for all `a`, `b`. -/
theorem lerp_endpoints (K : Type) [Ring K] :
    ((∀ a b : vector2 F32, a.all F32.wf = true → a.all F32.isFinite = true →
        (b - a).all F32.isFinite = true → (vector2.lerp a b 0).eq a = true) ∧
      (∀ a b : vector3 F32, a.all F32.wf = true → a.all F32.isFinite = true →
        (b - a).all F32.isFinite = true → (vector3.lerp a b 0).eq a = true) ∧
      (∀ a b : vector4 F32, a.all F32.wf = true → a.all F32.isFinite = true →
        (b - a).all F32.isFinite = true → (vector4.lerp a b 0).eq a = true)) ∧
    ((∀ a b : vector2 K, vector2.lerp a b 0 = a ∧ vector2.lerp a b 1 = b) ∧
      (∀ a b : vector3 K, vector3.lerp a b 0 = a ∧ vector3.lerp a b 1 = b) ∧
      (∀ a b : vector4 K, vector4.lerp a b 0 = a ∧ vector4.lerp a b 1 = b)) := by
  refine ⟨⟨?_, ?_, ?_⟩, ⟨?_, ?_, ?_⟩⟩
  · rintro ⟨ax, ay⟩ ⟨bx, b_y⟩ hw hf hd
    simp only [vector2.all, vector2_sub_def, Bool.and_eq_true] at hw hf hd
    simp only [vector2.lerp, vector2_sub_def, vector2_mul_scalar_def, vector2_add_def,
      vector2.eq, F32.beq_def, Bool.and_eq_true]
    exact ⟨F32.add_mul_zero_eq _ _ hw.1 hf.1 hd.1, F32.add_mul_zero_eq _ _ hw.2 hf.2 hd.2⟩
  · rintro ⟨ax, ay, az⟩ ⟨bx, b_y, bz⟩ hw hf hd
    simp only [vector3.all, vector3_sub_def, Bool.and_eq_true] at hw hf hd
    simp only [vector3.lerp, vector3_sub_def, vector3_mul_scalar_def, vector3_add_def,
      vector3.eq, F32.beq_def, Bool.and_eq_true]
    exact ⟨⟨F32.add_mul_zero_eq _ _ hw.1.1 hf.1.1 hd.1.1,
      F32.add_mul_zero_eq _ _ hw.1.2 hf.1.2 hd.1.2⟩, F32.add_mul_zero_eq _ _ hw.2 hf.2 hd.2⟩
  · rintro ⟨ax, ay, az, aw⟩ ⟨bx, b_y, bz, bw⟩ hw hf hd
    simp only [vector4.all, vector4_sub_def, Bool.and_eq_true] at hw hf hd
    simp only [vector4.lerp, vector4_sub_def, vector4_mul_scalar_def, vector4_add_def,
      vector4.eq, F32.beq_def, Bool.and_eq_true]
    exact ⟨⟨⟨F32.add_mul_zero_eq _ _ hw.1.1.1 hf.1.1.1 hd.1.1.1,
      F32.add_mul_zero_eq _ _ hw.1.1.2 hf.1.1.2 hd.1.1.2⟩,
      F32.add_mul_zero_eq _ _ hw.1.2 hf.1.2 hd.1.2⟩, F32.add_mul_zero_eq _ _ hw.2 hf.2 hd.2⟩
  · rintro ⟨ax, ay⟩ ⟨bx, b_y⟩
    simp [vector2.lerp, vector2_sub_def, vector2_mul_scalar_def, vector2_add_def]
  · rintro ⟨ax, ay, az⟩ ⟨bx, b_y, bz⟩
    simp [vector3.lerp, vector3_sub_def, vector3_mul_scalar_def, vector3_add_def]
  · rintro ⟨ax, ay, az, aw⟩ ⟨bx, b_y, bz, bw⟩
    simp [vector4.lerp, vector4_sub_def, vector4_mul_scalar_def, vector4_add_def]

/-- On binary32, `lerp((1, 2), (5, 3), 0.0) == (1, 2)`; over the rationals,
`lerp((1, 2), (5, 3), 1) = (5, 3)`. -/
theorem lerp_endpoints_witness :
    ((⟨1, F32.ofNat 2⟩ : vector2 F32).all F32.wf = true ∧
      (⟨1, F32.ofNat 2⟩ : vector2 F32).all F32.isFinite = true ∧
      ((⟨F32.ofNat 5, F32.ofNat 3⟩ : vector2 F32) - ⟨1, F32.ofNat 2⟩).all F32.isFinite
        = true) ∧
    (vector2.lerp (⟨1, F32.ofNat 2⟩ : vector2 F32) ⟨F32.ofNat 5, F32.ofNat 3⟩ 0).eq
      ⟨1, F32.ofNat 2⟩ = true ∧
    vector2.lerp (⟨1, 2⟩ : vector2 ℚ) ⟨5, 3⟩ 1 = ⟨5, 3⟩ :=
  ⟨⟨by decide, by decide, by decide⟩,
   (lerp_endpoints ℚ).1.1 ⟨1, F32.ofNat 2⟩ ⟨F32.ofNat 5, F32.ofNat 3⟩
     (by decide) (by decide) (by decide),
   ((lerp_endpoints ℚ).2.1 ⟨1, 2⟩ ⟨5, 3⟩).2⟩

/-! ## Negation and scalar multiplication -/

/-- C6, as stated, fails on binary32: for `v = (+∞, 0)`, `v + (-v)` has the component
`∞ + (-∞)`, which is NaN, and does not compare equal to the zero vector. -/
theorem add_neg_infinite :
    (⟨F32.inf false, 0⟩ : vector2 F32) + -(⟨F32.inf false, 0⟩ : vector2 F32) = ⟨F32.nan, 0⟩ ∧
    ((⟨F32.inf false, 0⟩ : vector2 F32) + -(⟨F32.inf false, 0⟩ : vector2 F32)).eq
      vector2.zero = false := by
  decide

/-- C6, amended. For each arity and every vector `v` whose components are all finite,
`v + (-v)` is the zero vector and compares `==` to it. -/
theorem add_neg_self_finite :
    (∀ v : vector2 F32, v.all F32.isFinite = true →
      v + -v = vector2.zero ∧ (v + -v).eq vector2.zero = true) ∧
    (∀ v : vector3 F32, v.all F32.isFinite = true →
      v + -v = vector3.zero ∧ (v + -v).eq vector3.zero = true) ∧
    (∀ v : vector4 F32, v.all F32.isFinite = true →
      v + -v = vector4.zero ∧ (v + -v).eq vector4.zero = true) := by
  refine ⟨?_, ?_, ?_⟩
  · rintro ⟨x, y⟩ h
    simp only [vector2.all, Bool.and_eq_true] at h
    have e : (⟨x, y⟩ : vector2 F32) + -⟨x, y⟩ = vector2.zero := by
      simp only [vector2_neg_def, vector2_add_def, F32.add_neg_self _ h.1,
        F32.add_neg_self _ h.2, vector2.zero]
    exact ⟨e, by rw [e]; decide⟩
  · rintro ⟨x, y, z⟩ h
    simp only [vector3.all, Bool.and_eq_true] at h
    have e : (⟨x, y, z⟩ : vector3 F32) + -⟨x, y, z⟩ = vector3.zero := by
      simp only [vector3_neg_def, vector3_add_def, F32.add_neg_self _ h.1.1,
        F32.add_neg_self _ h.1.2, F32.add_neg_self _ h.2, vector3.zero]
    exact ⟨e, by rw [e]; decide⟩
  · rintro ⟨x, y, z, w⟩ h
    simp only [vector4.all, Bool.and_eq_true] at h
    have e : (⟨x, y, z, w⟩ : vector4 F32) + -⟨x, y, z, w⟩ = vector4.zero := by
      simp only [vector4_neg_def, vector4_add_def, F32.add_neg_self _ h.1.1.1,
        F32.add_neg_self _ h.1.1.2, F32.add_neg_self _ h.1.2, F32.add_neg_self _ h.2,
        vector4.zero]
    exact ⟨e, by rw [e]; decide⟩

/-- For `v = (3, -0.0, 5)`: `v + (-v)` is `(0, 0, 0)`. -/
theorem add_neg_self_finite_witness :
    (⟨F32.ofNat 3, F32.fin true 0, F32.ofNat 5⟩ : vector3 F32).all F32.isFinite = true ∧
    (⟨F32.ofNat 3, F32.fin true 0, F32.ofNat 5⟩ : vector3 F32)
      + -⟨F32.ofNat 3, F32.fin true 0, F32.ofNat 5⟩ = vector3.zero :=
  ⟨by decide,
   (add_neg_self_finite.2.1 ⟨F32.ofNat 3, F32.fin true 0, F32.ofNat 5⟩ (by decide)).1⟩

/-- C7, as stated, fails on binary32: for `v = (+∞, 0)`, `v * 0.0` has the NaN component
`∞ * 0.0` and does not compare equal to the zero vector; for `v = (NaN, 0)`, `v * 1.0`
does not compare equal to `v`. -/
theorem mul_scalar_nonfinite :
    (((⟨F32.inf false, 0⟩ : vector2 F32) * (0 : F32) : vector2 F32) = ⟨F32.nan, 0⟩ ∧
      ((⟨F32.inf false, 0⟩ : vector2 F32) * (0 : F32) : vector2 F32).eq vector2.zero
        = false) ∧
    ((⟨F32.nan, 0⟩ : vector2 F32) * (1 : F32) : vector2 F32).eq ⟨F32.nan, 0⟩ = false := by
  decide

/-- C7, amended. For each arity and every vector `v` of binary32 values: `v * 1.0` is
`v`, and compares `==` to it when `v` has no NaN component; `v * 0.0 == ` the zero
vector when the components of `v` are all finite. -/
theorem mul_one_zero_finite :
    (∀ v : vector2 F32, v.all F32.wf = true →
      ((v * (1 : F32) : vector2 F32) = v ∧
        (v.all (fun c => !c.isNaN) = true → (v * (1 : F32) : vector2 F32).eq v = true)) ∧
      (v.all F32.isFinite = true → (v * (0 : F32) : vector2 F32).eq vector2.zero = true)) ∧
    (∀ v : vector3 F32, v.all F32.wf = true →
      ((v * (1 : F32) : vector3 F32) = v ∧
        (v.all (fun c => !c.isNaN) = true → (v * (1 : F32) : vector3 F32).eq v = true)) ∧
      (v.all F32.isFinite = true → (v * (0 : F32) : vector3 F32).eq vector3.zero = true)) ∧
    (∀ v : vector4 F32, v.all F32.wf = true →
      ((v * (1 : F32) : vector4 F32) = v ∧
        (v.all (fun c => !c.isNaN) = true → (v * (1 : F32) : vector4 F32).eq v = true)) ∧
      (v.all F32.isFinite = true → (v * (0 : F32) : vector4 F32).eq vector4.zero = true)) := by
  refine ⟨?_, ?_, ?_⟩
  · rintro ⟨x, y⟩ hw
    simp only [vector2.all, Bool.and_eq_true] at hw
    have e : ((⟨x, y⟩ : vector2 F32) * (1 : F32) : vector2 F32) = ⟨x, y⟩ := by
      simp only [vector2_mul_scalar_def, F32.mul_one _ hw.1, F32.mul_one _ hw.2]
    refine ⟨⟨e, fun hn => ?_⟩, fun hf => ?_⟩
    · rw [e]
      simpa [vector2.eq, vector2.all, F32.beq_def, F32.eq_self] using hn
    · simp only [vector2.all, Bool.and_eq_true] at hf
      simp only [vector2_mul_scalar_def, vector2.eq, vector2.zero, F32.beq_def,
        F32.mul_zero_eq _ hf.1, F32.mul_zero_eq _ hf.2, Bool.and_self]
  · rintro ⟨x, y, z⟩ hw
    simp only [vector3.all, Bool.and_eq_true] at hw
    have e : ((⟨x, y, z⟩ : vector3 F32) * (1 : F32) : vector3 F32) = ⟨x, y, z⟩ := by
      simp only [vector3_mul_scalar_def, F32.mul_one _ hw.1.1, F32.mul_one _ hw.1.2,
        F32.mul_one _ hw.2]
    refine ⟨⟨e, fun hn => ?_⟩, fun hf => ?_⟩
    · rw [e]
      simpa [vector3.eq, vector3.all, F32.beq_def, F32.eq_self] using hn
    · simp only [vector3.all, Bool.and_eq_true] at hf
      simp only [vector3_mul_scalar_def, vector3.eq, vector3.zero, F32.beq_def,
        F32.mul_zero_eq _ hf.1.1, F32.mul_zero_eq _ hf.1.2, F32.mul_zero_eq _ hf.2,
        Bool.and_self]
  · rintro ⟨x, y, z, w⟩ hw
    simp only [vector4.all, Bool.and_eq_true] at hw
    have e : ((⟨x, y, z, w⟩ : vector4 F32) * (1 : F32) : vector4 F32) = ⟨x, y, z, w⟩ := by
      simp only [vector4_mul_scalar_def, F32.mul_one _ hw.1.1.1, F32.mul_one _ hw.1.1.2,
        F32.mul_one _ hw.1.2, F32.mul_one _ hw.2]
    refine ⟨⟨e, fun hn => ?_⟩, fun hf => ?_⟩
    · rw [e]
      simpa [vector4.eq, vector4.all, F32.beq_def, F32.eq_self] using hn
    · simp only [vector4.all, Bool.and_eq_true] at hf
      simp only [vector4_mul_scalar_def, vector4.eq, vector4.zero, F32.beq_def,
        F32.mul_zero_eq _ hf.1.1.1, F32.mul_zero_eq _ hf.1.1.2, F32.mul_zero_eq _ hf.1.2,
        F32.mul_zero_eq _ hf.2, Bool.and_self]

/-- For `v = (1/3, -7)`, with `1/3` rounded to `float`: `v * 1.0 == v` and
`v * 0.0 == (0, 0)`. -/
theorem mul_one_zero_finite_witness :
    ((⟨(1 : F32) / F32.ofNat 3, -F32.ofNat 7⟩ : vector2 F32).all F32.wf = true ∧
      (⟨(1 : F32) / F32.ofNat 3, -F32.ofNat 7⟩ : vector2 F32).all (fun c => !c.isNaN)
        = true ∧
      (⟨(1 : F32) / F32.ofNat 3, -F32.ofNat 7⟩ : vector2 F32).all F32.isFinite = true) ∧
    ((⟨(1 : F32) / F32.ofNat 3, -F32.ofNat 7⟩ : vector2 F32) * (1 : F32) : vector2 F32).eq
      ⟨(1 : F32) / F32.ofNat 3, -F32.ofNat 7⟩ = true ∧
    ((⟨(1 : F32) / F32.ofNat 3, -F32.ofNat 7⟩ : vector2 F32) * (0 : F32) : vector2 F32).eq
      vector2.zero = true :=
  have h := mul_one_zero_finite.1 ⟨(1 : F32) / F32.ofNat 3, -F32.ofNat 7⟩ (by decide)
  ⟨⟨by decide, by decide, by decide⟩, h.1.2 (by decide), h.2 (by decide)⟩

/-! ## Dot and cross products -/

/-- C8, as stated, fails on binary32: for `a = (2^64, 2^64)` and `b = (2^64, -2^64)`,
both of finite components, the products overflow to `+∞` and `-∞`, their sum is NaN,
and `a.dot(b) == b.dot(a)` is false. -/
theorem dot_comm_nan :
    (⟨F32.fin false (2 ^ 213), F32.fin false (2 ^ 213)⟩ : vector2 F32).all F32.wf = true ∧
    (⟨F32.fin false (2 ^ 213), F32.fin true (2 ^ 213)⟩ : vector2 F32).all F32.wf = true ∧
    (⟨F32.fin false (2 ^ 213), F32.fin false (2 ^ 213)⟩ : vector2 F32).dot
      ⟨F32.fin false (2 ^ 213), F32.fin true (2 ^ 213)⟩ = F32.nan ∧
    ((⟨F32.fin false (2 ^ 213), F32.fin false (2 ^ 213)⟩ : vector2 F32).dot
        ⟨F32.fin false (2 ^ 213), F32.fin true (2 ^ 213)⟩
      == (⟨F32.fin false (2 ^ 213), F32.fin true (2 ^ 213)⟩ : vector2 F32).dot
        ⟨F32.fin false (2 ^ 213), F32.fin false (2 ^ 213)⟩) = false := by
  decide

/-- C8, amended. For each arity and all vectors `a`, `b`: `a.dot(b)` and `b.dot(a)` are
the same `float`, so `a.dot(b) == b.dot(a)` holds exactly when that value is not
NaN. -/
theorem dot_comm_value :
    (∀ a b : vector2 F32, a.dot b = b.dot a ∧
      (a.dot b == b.dot a) = !(a.dot b).isNaN) ∧
    (∀ a b : vector3 F32, a.dot b = b.dot a ∧
      (a.dot b == b.dot a) = !(a.dot b).isNaN) ∧
    (∀ a b : vector4 F32, a.dot b = b.dot a ∧
      (a.dot b == b.dot a) = !(a.dot b).isNaN) := by
  refine ⟨?_, ?_, ?_⟩
  · intro a b
    have e : a.dot b = b.dot a := by
      simp only [vector2.dot, F32.mul_comm a.x, F32.mul_comm a.y]
    exact ⟨e, by rw [← e, F32.beq_def, F32.eq_self]⟩
  · intro a b
    have e : a.dot b = b.dot a := by
      simp only [vector3.dot, F32.mul_comm a.x, F32.mul_comm a.y, F32.mul_comm a.z]
    exact ⟨e, by rw [← e, F32.beq_def, F32.eq_self]⟩
  · intro a b
    have e : a.dot b = b.dot a := by
      simp only [vector4.dot, F32.mul_comm a.x, F32.mul_comm a.y, F32.mul_comm a.z,
        F32.mul_comm a.w]
    exact ⟨e, by rw [← e, F32.beq_def, F32.eq_self]⟩

/-- C9, as stated, fails on binary32: for `a = b = (0, 2^64, 2^64)`, of finite
components, the first component of `a.cross(b)` is `∞ - ∞`, a NaN, and
`a.cross(b) == -(b.cross(a))` is false. -/
theorem cross_anticomm_nan :
    (⟨0, F32.fin false (2 ^ 213), F32.fin false (2 ^ 213)⟩ : vector3 F32).all F32.wf
      = true ∧
    (⟨0, F32.fin false (2 ^ 213), F32.fin false (2 ^ 213)⟩ : vector3 F32).cross
      ⟨0, F32.fin false (2 ^ 213), F32.fin false (2 ^ 213)⟩ = ⟨F32.nan, 0, 0⟩ ∧
    ((⟨0, F32.fin false (2 ^ 213), F32.fin false (2 ^ 213)⟩ : vector3 F32).cross
        ⟨0, F32.fin false (2 ^ 213), F32.fin false (2 ^ 213)⟩).eq
      (-((⟨0, F32.fin false (2 ^ 213), F32.fin false (2 ^ 213)⟩ : vector3 F32).cross
        ⟨0, F32.fin false (2 ^ 213), F32.fin false (2 ^ 213)⟩)) = false := by
  decide

/-- C9, amended. For all `vector3` values `a`, `b` for which `a.cross(b)` has no NaN
component, `a.cross(b) == -(b.cross(a))`. -/
theorem cross_anticomm_of_not_nan (a b : vector3 F32)
    (h : (a.cross b).all (fun c => !c.isNaN) = true) :
    (a.cross b).eq (-(b.cross a)) = true := by
  simp only [vector3.cross, vector3.all, Bool.and_eq_true, Bool.not_eq_true'] at h
  simp only [vector3.cross, vector3_neg_def, vector3.eq, F32.beq_def, Bool.and_eq_true]
  rw [F32.mul_comm b.y a.z, F32.mul_comm b.z a.y, F32.mul_comm b.z a.x,
    F32.mul_comm b.x a.z, F32.mul_comm b.x a.y, F32.mul_comm b.y a.x]
  exact ⟨⟨F32.sub_eq_neg_sub _ _ h.1.1, F32.sub_eq_neg_sub _ _ h.1.2⟩,
    F32.sub_eq_neg_sub _ _ h.2⟩

/-- For `a = (1, 2, 3)` and `b = (4, 5, 6)`: `a.cross(b)` is `(-3, 6, -3)` and compares
equal to `-(b.cross(a))`. -/
theorem cross_anticomm_of_not_nan_witness :
    ((⟨1, F32.ofNat 2, F32.ofNat 3⟩ : vector3 F32).cross
        ⟨F32.ofNat 4, F32.ofNat 5, F32.ofNat 6⟩).all (fun c => !c.isNaN) = true ∧
    (⟨1, F32.ofNat 2, F32.ofNat 3⟩ : vector3 F32).cross
        ⟨F32.ofNat 4, F32.ofNat 5, F32.ofNat 6⟩
      = ⟨-F32.ofNat 3, F32.ofNat 6, -F32.ofNat 3⟩ ∧
    ((⟨1, F32.ofNat 2, F32.ofNat 3⟩ : vector3 F32).cross
        ⟨F32.ofNat 4, F32.ofNat 5, F32.ofNat 6⟩).eq
      (-((⟨F32.ofNat 4, F32.ofNat 5, F32.ofNat 6⟩ : vector3 F32).cross
        ⟨1, F32.ofNat 2, F32.ofNat 3⟩)) = true :=
  ⟨by decide, by decide,
   cross_anticomm_of_not_nan ⟨1, F32.ofNat 2, F32.ofNat 3⟩
     ⟨F32.ofNat 4, F32.ofNat 5, F32.ofNat 6⟩ (by decide)⟩

/-- C10. In exact arithmetic (any commutative ring `K`), for all `vector3` values `a`,
`b`, the vector `a.cross(b)` is perpendicular to both: `a.dot(a.cross(b))` and
`b.dot(a.cross(b))` are `0`. -/
theorem cross_perpendicular (K : Type) [CommRing K] (a b : vector3 K) :
    a.dot (a.cross b) = 0 ∧ b.dot (a.cross b) = 0 := by
  constructor <;> simp only [vector3.dot, vector3.cross] <;> ring

/-! ## Cross products on the basis and in the plane -/

/-- C11. On `float`, with `ex = (1,0,0)`, `ey = (0,1,0)`, `ez = (0,0,1)`:
`ex.cross(ey)` is `ez`, `ey.cross(ez)` is `ex` and `ez.cross(ex)` is `ey`, each also
under `operator==`. -/
theorem cross_basis_right_handed :
    ((⟨1, 0, 0⟩ : vector3 F32).cross ⟨0, 1, 0⟩ = ⟨0, 0, 1⟩ ∧
      ((⟨1, 0, 0⟩ : vector3 F32).cross ⟨0, 1, 0⟩).eq ⟨0, 0, 1⟩ = true) ∧
    ((⟨0, 1, 0⟩ : vector3 F32).cross ⟨0, 0, 1⟩ = ⟨1, 0, 0⟩ ∧
      ((⟨0, 1, 0⟩ : vector3 F32).cross ⟨0, 0, 1⟩).eq ⟨1, 0, 0⟩ = true) ∧
    ((⟨0, 0, 1⟩ : vector3 F32).cross ⟨1, 0, 0⟩ = ⟨0, 1, 0⟩ ∧
      ((⟨0, 0, 1⟩ : vector3 F32).cross ⟨1, 0, 0⟩).eq ⟨0, 1, 0⟩ = true) := by
  decide

/-- C12, as stated, fails on binary32: for `a = (+∞, 0)` and `b = (0, 0)` the
y-component of `vector3(a.x, a.y, 0).cross(vector3(b.x, b.y, 0))` is
`0 * 0 - ∞ * 0`, a NaN, not zero. -/
theorem cross_embedding_nan :
    ((⟨F32.inf false, 0, 0⟩ : vector3 F32).cross ⟨0, 0, 0⟩).y = F32.nan ∧
    (((⟨F32.inf false, 0, 0⟩ : vector3 F32).cross ⟨0, 0, 0⟩).y == (0 : F32)) = false := by
  decide

/-- C12, amended. For all `vector2` values `a`, `b`: the scalar `a.cross(b)` is the
z-component of `vector3(a.x, a.y, 0).cross(vector3(b.x, b.y, 0))`; when the components
of `a` and `b` are finite, the x- and y-components of that 3D cross product are
zero. -/
theorem cross_embedding (a b : vector2 F32) :
    a.cross b = ((⟨a.x, a.y, 0⟩ : vector3 F32).cross ⟨b.x, b.y, 0⟩).z ∧
    (a.all F32.isFinite = true → b.all F32.isFinite = true →
      (((⟨a.x, a.y, 0⟩ : vector3 F32).cross ⟨b.x, b.y, 0⟩).x == (0 : F32)) = true ∧
      (((⟨a.x, a.y, 0⟩ : vector3 F32).cross ⟨b.x, b.y, 0⟩).y == (0 : F32)) = true) := by
  refine ⟨rfl, fun ha hb => ?_⟩
  simp only [vector2.all, Bool.and_eq_true] at ha hb
  simp only [vector3.cross, F32.beq_def]
  exact ⟨F32.mul_zero_sub_zero_mul _ _ ha.2 hb.2, F32.zero_mul_sub_mul_zero _ _ ha.1 hb.1⟩

/-- For `a = (1, 2)` and `b = (3, 4)`: `a.cross(b)` is `-2`, the z-component of the 3D
cross product, whose other two components are zero. -/
theorem cross_embedding_witness :
    ((⟨1, F32.ofNat 2⟩ : vector2 F32).all F32.isFinite = true ∧
      (⟨F32.ofNat 3, F32.ofNat 4⟩ : vector2 F32).all F32.isFinite = true) ∧
    (⟨1, F32.ofNat 2⟩ : vector2 F32).cross ⟨F32.ofNat 3, F32.ofNat 4⟩ = -F32.ofNat 2 ∧
    ((⟨1, F32.ofNat 2, 0⟩ : vector3 F32).cross ⟨F32.ofNat 3, F32.ofNat 4, 0⟩).z
      = -F32.ofNat 2 ∧
    (((⟨1, F32.ofNat 2, 0⟩ : vector3 F32).cross ⟨F32.ofNat 3, F32.ofNat 4, 0⟩).x
      == (0 : F32)) = true ∧
    (((⟨1, F32.ofNat 2, 0⟩ : vector3 F32).cross ⟨F32.ofNat 3, F32.ofNat 4, 0⟩).y
      == (0 : F32)) = true :=
  have h := cross_embedding ⟨1, F32.ofNat 2⟩ ⟨F32.ofNat 3, F32.ofNat 4⟩
  ⟨⟨by decide, by decide⟩, by decide, by decide, (h.2 (by decide) (by decide)).1,
    (h.2 (by decide) (by decide)).2⟩

/-! ## Length -/

/-- C13. For each arity and every vector `v`: `length_squared()` is `v.dot(v)`; in exact
arithmetic (the reals, `std::sqrt` as the real square root) `length()` is its
non-negative square root, so `length() ≥ 0` and `length() * length()` is
`length_squared()`; on `float`, `vector2(3,4).length() == 5.0`. -/
theorem length_is_sqrt_of_self_dot :
    ((∀ v : vector2 F32, v.length_squared = v.dot v ∧
        v.length F32.sqrt = F32.sqrt (v.dot v)) ∧
      (∀ v : vector3 F32, v.length_squared = v.dot v ∧
        v.length F32.sqrt = F32.sqrt (v.dot v)) ∧
      (∀ v : vector4 F32, v.length_squared = v.dot v ∧
        v.length F32.sqrt = F32.sqrt (v.dot v))) ∧
    ((∀ v : vector2 ℝ, v.length_squared = v.dot v ∧ 0 ≤ v.length Real.sqrt ∧
        v.length Real.sqrt * v.length Real.sqrt = v.length_squared) ∧
      (∀ v : vector3 ℝ, v.length_squared = v.dot v ∧ 0 ≤ v.length Real.sqrt ∧
        v.length Real.sqrt * v.length Real.sqrt = v.length_squared) ∧
      (∀ v : vector4 ℝ, v.length_squared = v.dot v ∧ 0 ≤ v.length Real.sqrt ∧
        v.length Real.sqrt * v.length Real.sqrt = v.length_squared)) ∧
    ((⟨F32.ofNat 3, F32.ofNat 4⟩ : vector2 F32).length F32.sqrt = F32.ofNat 5 ∧
      ((⟨F32.ofNat 3, F32.ofNat 4⟩ : vector2 F32).length F32.sqrt == F32.ofNat 5) = true ∧
      (⟨3, 4⟩ : vector2 ℝ).length Real.sqrt = 5) := by
  refine ⟨⟨fun v => ⟨rfl, rfl⟩, fun v => ⟨rfl, rfl⟩, fun v => ⟨rfl, rfl⟩⟩,
    ⟨?_, ?_, ?_⟩, ⟨by decide, by decide, ?_⟩⟩
  · rintro ⟨x, y⟩
    refine ⟨rfl, Real.sqrt_nonneg _, ?_⟩
    simp only [vector2.length, vector2.length_squared, vector2.dot]
    exact Real.mul_self_sqrt (add_nonneg (mul_self_nonneg x) (mul_self_nonneg y))
  · rintro ⟨x, y, z⟩
    refine ⟨rfl, Real.sqrt_nonneg _, ?_⟩
    simp only [vector3.length, vector3.length_squared, vector3.dot]
    exact Real.mul_self_sqrt
      (add_nonneg (add_nonneg (mul_self_nonneg x) (mul_self_nonneg y)) (mul_self_nonneg z))
  · rintro ⟨x, y, z, w⟩
    refine ⟨rfl, Real.sqrt_nonneg _, ?_⟩
    simp only [vector4.length, vector4.length_squared, vector4.dot]
    exact Real.mul_self_sqrt
      (add_nonneg (add_nonneg (add_nonneg (mul_self_nonneg x) (mul_self_nonneg y))
        (mul_self_nonneg z)) (mul_self_nonneg w))
  · simp only [vector2.length, vector2.length_squared, vector2.dot]
    rw [show (3 : ℝ) * 3 + 4 * 4 = 5 * 5 by norm_num]
    exact Real.sqrt_mul_self (by norm_num)

/-! ## Binary operators and scalar multiplication from either side -/

/-- C14. For each arity and all vectors `a`, `b` over any scalar type: `a + b`, `a - b`,
`a * b` and `a / b` are the vectors of the component-wise sums, differences, products
and quotients, and each is what the matching compound assignment leaves in a copy of
`a`; on `float`, `vector4(1,2,3,4) + vector4(4,3,2,1) == vector4(5,5,5,5)`.  The
operators take `a` by value and `b` by reference to `const`, so they are functions of
the two values. -/
theorem binary_operators_componentwise (F : Type) [Add F] [Sub F] [Mul F] [Div F] :
    (∀ a b : vector2 F,
      (a + b = ⟨a.x + b.x, a.y + b.y⟩ ∧ a + b = vector2.add_assign a b) ∧
      (a - b = ⟨a.x - b.x, a.y - b.y⟩ ∧ a - b = vector2.sub_assign a b) ∧
      (a * b = ⟨a.x * b.x, a.y * b.y⟩ ∧ a * b = vector2.mul_assign a b) ∧
      (a / b = ⟨a.x / b.x, a.y / b.y⟩ ∧ a / b = vector2.div_assign a b)) ∧
    (∀ a b : vector3 F,
      (a + b = ⟨a.x + b.x, a.y + b.y, a.z + b.z⟩ ∧ a + b = vector3.add_assign a b) ∧
      (a - b = ⟨a.x - b.x, a.y - b.y, a.z - b.z⟩ ∧ a - b = vector3.sub_assign a b) ∧
      (a * b = ⟨a.x * b.x, a.y * b.y, a.z * b.z⟩ ∧ a * b = vector3.mul_assign a b) ∧
      (a / b = ⟨a.x / b.x, a.y / b.y, a.z / b.z⟩ ∧ a / b = vector3.div_assign a b)) ∧
    (∀ a b : vector4 F,
      (a + b = ⟨a.x + b.x, a.y + b.y, a.z + b.z, a.w + b.w⟩ ∧ a + b = vector4.add_assign a b) ∧
      (a - b = ⟨a.x - b.x, a.y - b.y, a.z - b.z, a.w - b.w⟩ ∧ a - b = vector4.sub_assign a b) ∧
      (a * b = ⟨a.x * b.x, a.y * b.y, a.z * b.z, a.w * b.w⟩ ∧ a * b = vector4.mul_assign a b) ∧
      (a / b = ⟨a.x / b.x, a.y / b.y, a.z / b.z, a.w / b.w⟩ ∧ a / b = vector4.div_assign a b)) ∧
    ((⟨1, F32.ofNat 2, F32.ofNat 3, F32.ofNat 4⟩ : vector4 F32)
        + ⟨F32.ofNat 4, F32.ofNat 3, F32.ofNat 2, 1⟩
      = ⟨F32.ofNat 5, F32.ofNat 5, F32.ofNat 5, F32.ofNat 5⟩ ∧
      ((⟨1, F32.ofNat 2, F32.ofNat 3, F32.ofNat 4⟩ : vector4 F32)
        + ⟨F32.ofNat 4, F32.ofNat 3, F32.ofNat 2, 1⟩).eq
        ⟨F32.ofNat 5, F32.ofNat 5, F32.ofNat 5, F32.ofNat 5⟩ = true) :=
  ⟨fun _ _ => ⟨⟨rfl, rfl⟩, ⟨rfl, rfl⟩, ⟨rfl, rfl⟩, ⟨rfl, rfl⟩⟩,
   fun _ _ => ⟨⟨rfl, rfl⟩, ⟨rfl, rfl⟩, ⟨rfl, rfl⟩, ⟨rfl, rfl⟩⟩,
   fun _ _ => ⟨⟨rfl, rfl⟩, ⟨rfl, rfl⟩, ⟨rfl, rfl⟩, ⟨rfl, rfl⟩⟩,
   by decide, by decide⟩

/-- C15, as stated, fails on binary32: for `v = (NaN, 0)` and `s = 1.0` both products
are `(NaN, 0)`, which does not compare equal to itself; the same happens for
`v = (+∞, 0)` and `s = 0.0`. -/
theorem scalar_mul_comm_nan :
    (((1 : F32) * (⟨F32.nan, 0⟩ : vector2 F32) : vector2 F32).eq
      ((⟨F32.nan, 0⟩ : vector2 F32) * (1 : F32)) = false) ∧
    (((0 : F32) * (⟨F32.inf false, 0⟩ : vector2 F32) : vector2 F32).eq
      ((⟨F32.inf false, 0⟩ : vector2 F32) * (0 : F32)) = false) := by
  decide

/-- C15, amended. For each arity, every vector `v` and every scalar `s`: `s * v` and
`v * s` are the same vector, whose components are those of `v` multiplied by `s` on
the right; `s * v == v * s` holds exactly when no component of it is NaN, and so
whenever `s` and the components of `v` are finite. -/
theorem scalar_mul_either_side :
    (∀ (v : vector2 F32) (s : F32),
      ((s * v : vector2 F32) = v * s ∧ (v * s : vector2 F32) = ⟨v.x * s, v.y * s⟩) ∧
      (s * v : vector2 F32).eq (v * s) = (v * s : vector2 F32).all (fun c => !c.isNaN) ∧
      (v.all F32.isFinite = true → s.isFinite = true →
        (s * v : vector2 F32).eq (v * s) = true)) ∧
    (∀ (v : vector3 F32) (s : F32),
      ((s * v : vector3 F32) = v * s ∧ (v * s : vector3 F32) = ⟨v.x * s, v.y * s, v.z * s⟩) ∧
      (s * v : vector3 F32).eq (v * s) = (v * s : vector3 F32).all (fun c => !c.isNaN) ∧
      (v.all F32.isFinite = true → s.isFinite = true →
        (s * v : vector3 F32).eq (v * s) = true)) ∧
    (∀ (v : vector4 F32) (s : F32),
      ((s * v : vector4 F32) = v * s ∧ (v * s : vector4 F32) = ⟨v.x * s, v.y * s, v.z * s, v.w * s⟩) ∧
      (s * v : vector4 F32).eq (v * s) = (v * s : vector4 F32).all (fun c => !c.isNaN) ∧
      (v.all F32.isFinite = true → s.isFinite = true →
        (s * v : vector4 F32).eq (v * s) = true)) := by
  refine ⟨?_, ?_, ?_⟩
  · rintro ⟨x, y⟩ s
    have e : ((s * (⟨x, y⟩ : vector2 F32) : vector2 F32)) = (⟨x, y⟩ : vector2 F32) * s := rfl
    have q : ((⟨x, y⟩ : vector2 F32) * s : vector2 F32).eq ((⟨x, y⟩ : vector2 F32) * s)
        = ((⟨x, y⟩ : vector2 F32) * s : vector2 F32).all (fun c => !c.isNaN) := by
      simp [vector2_mul_scalar_def, vector2.eq, vector2.all, F32.beq_def, F32.eq_self]
    refine ⟨⟨e, rfl⟩, by rw [e]; exact q, fun hf hs => ?_⟩
    rw [e, q]
    simp only [vector2.all, Bool.and_eq_true] at hf
    simp [vector2_mul_scalar_def, vector2.all, F32.isNaN_mul_of_finite _ _ hf.1 hs, F32.isNaN_mul_of_finite _ _ hf.2 hs]
  · rintro ⟨x, y, z⟩ s
    have e : ((s * (⟨x, y, z⟩ : vector3 F32) : vector3 F32)) = (⟨x, y, z⟩ : vector3 F32) * s := rfl
    have q : ((⟨x, y, z⟩ : vector3 F32) * s : vector3 F32).eq ((⟨x, y, z⟩ : vector3 F32) * s)
        = ((⟨x, y, z⟩ : vector3 F32) * s : vector3 F32).all (fun c => !c.isNaN) := by
      simp [vector3_mul_scalar_def, vector3.eq, vector3.all, F32.beq_def, F32.eq_self]
    refine ⟨⟨e, rfl⟩, by rw [e]; exact q, fun hf hs => ?_⟩
    rw [e, q]
    simp only [vector3.all, Bool.and_eq_true] at hf
    simp [vector3_mul_scalar_def, vector3.all, F32.isNaN_mul_of_finite _ _ hf.1.1 hs, F32.isNaN_mul_of_finite _ _ hf.1.2 hs, F32.isNaN_mul_of_finite _ _ hf.2 hs]
  · rintro ⟨x, y, z, w⟩ s
    have e : ((s * (⟨x, y, z, w⟩ : vector4 F32) : vector4 F32)) = (⟨x, y, z, w⟩ : vector4 F32) * s := rfl
    have q : ((⟨x, y, z, w⟩ : vector4 F32) * s : vector4 F32).eq ((⟨x, y, z, w⟩ : vector4 F32) * s)
        = ((⟨x, y, z, w⟩ : vector4 F32) * s : vector4 F32).all (fun c => !c.isNaN) := by
      simp [vector4_mul_scalar_def, vector4.eq, vector4.all, F32.beq_def, F32.eq_self]
    refine ⟨⟨e, rfl⟩, by rw [e]; exact q, fun hf hs => ?_⟩
    rw [e, q]
    simp only [vector4.all, Bool.and_eq_true] at hf
    simp [vector4_mul_scalar_def, vector4.all, F32.isNaN_mul_of_finite _ _ hf.1.1.1 hs, F32.isNaN_mul_of_finite _ _ hf.1.1.2 hs, F32.isNaN_mul_of_finite _ _ hf.1.2 hs, F32.isNaN_mul_of_finite _ _ hf.2 hs]

/-- For `v = (1/3, -7)` and `s = 3`: `s * v == v * s`. -/
theorem scalar_mul_either_side_witness :
    ((⟨(1 : F32) / F32.ofNat 3, -F32.ofNat 7⟩ : vector2 F32).all F32.isFinite = true ∧
      (F32.ofNat 3).isFinite = true) ∧
    (F32.ofNat 3 * (⟨(1 : F32) / F32.ofNat 3, -F32.ofNat 7⟩ : vector2 F32) : vector2 F32).eq
      ((⟨(1 : F32) / F32.ofNat 3, -F32.ofNat 7⟩ : vector2 F32) * F32.ofNat 3) = true :=
  ⟨⟨by decide, by decide⟩,
   (scalar_mul_either_side.1 ⟨(1 : F32) / F32.ofNat 3, -F32.ofNat 7⟩ (F32.ofNat 3)).2.2
     (by decide) (by decide)⟩

/-! ## Distance -/

/-- C16, as stated, fails on binary32: for `a = (+∞, 0)` the difference `a - a` has the
NaN component `∞ - ∞`, so `a.distance(a)` is NaN: it is not `== 0`, and
`a.distance(a) == a.distance(a)` is false. -/
theorem distance_nan :
    (⟨F32.inf false, 0⟩ : vector2 F32).distance F32.sqrt ⟨F32.inf false, 0⟩ = F32.nan ∧
    ((⟨F32.inf false, 0⟩ : vector2 F32).distance F32.sqrt ⟨F32.inf false, 0⟩
      == (0 : F32)) = false ∧
    ((⟨F32.inf false, 0⟩ : vector2 F32).distance F32.sqrt ⟨F32.inf false, 0⟩
      == (⟨F32.inf false, 0⟩ : vector2 F32).distance F32.sqrt ⟨F32.inf false, 0⟩)
      = false := by
  decide

/-- C16, amended. For each arity and all vectors `a`, `b`: `a.distance(b)` is
`(b - a).length()`, the same `float` as `(a - b).length()` and as `b.distance(a)`, so
`a.distance(b) == b.distance(a)` holds exactly when that value is not NaN; and
`a.distance(a)` is `0` for every `a` whose components are finite. -/
theorem distance_symmetric :
    (∀ a b : vector2 F32,
      a.distance F32.sqrt b = (b - a).length F32.sqrt ∧
      (a - b).length F32.sqrt = (b - a).length F32.sqrt ∧
      a.distance F32.sqrt b = b.distance F32.sqrt a ∧
      (a.distance F32.sqrt b == b.distance F32.sqrt a)
        = !(a.distance F32.sqrt b).isNaN ∧
      (a.all F32.isFinite = true →
        a.distance F32.sqrt a = 0 ∧ (a.distance F32.sqrt a == (0 : F32)) = true)) ∧
    (∀ a b : vector3 F32,
      a.distance F32.sqrt b = (b - a).length F32.sqrt ∧
      (a - b).length F32.sqrt = (b - a).length F32.sqrt ∧
      a.distance F32.sqrt b = b.distance F32.sqrt a ∧
      (a.distance F32.sqrt b == b.distance F32.sqrt a)
        = !(a.distance F32.sqrt b).isNaN ∧
      (a.all F32.isFinite = true →
        a.distance F32.sqrt a = 0 ∧ (a.distance F32.sqrt a == (0 : F32)) = true)) ∧
    (∀ a b : vector4 F32,
      a.distance F32.sqrt b = (b - a).length F32.sqrt ∧
      (a - b).length F32.sqrt = (b - a).length F32.sqrt ∧
      a.distance F32.sqrt b = b.distance F32.sqrt a ∧
      (a.distance F32.sqrt b == b.distance F32.sqrt a)
        = !(a.distance F32.sqrt b).isNaN ∧
      (a.all F32.isFinite = true →
        a.distance F32.sqrt a = 0 ∧ (a.distance F32.sqrt a == (0 : F32)) = true)) := by
  refine ⟨?_, ?_, ?_⟩
  · intro a b
    have e : (a - b).length F32.sqrt = (b - a).length F32.sqrt := by
      simp only [vector2.length, vector2.length_squared, vector2.dot, vector2_sub_def,
        F32.sq_sub_swap a.x b.x, F32.sq_sub_swap a.y b.y]
    have d : a.distance F32.sqrt b = b.distance F32.sqrt a := by
      simp only [vector2.distance, e]
    refine ⟨rfl, e, d, by rw [← d, F32.beq_def, F32.eq_self], fun hf => ?_⟩
    simp only [vector2.all, Bool.and_eq_true] at hf
    have z : a.distance F32.sqrt a = 0 := by
      simp only [vector2.distance, vector2.length, vector2.length_squared, vector2.dot, vector2_sub_def,
        F32.sub_self _ hf.1, F32.sub_self _ hf.2]
      decide
    exact ⟨z, by rw [z]; decide⟩
  · intro a b
    have e : (a - b).length F32.sqrt = (b - a).length F32.sqrt := by
      simp only [vector3.length, vector3.length_squared, vector3.dot, vector3_sub_def,
        F32.sq_sub_swap a.x b.x, F32.sq_sub_swap a.y b.y, F32.sq_sub_swap a.z b.z]
    have d : a.distance F32.sqrt b = b.distance F32.sqrt a := by
      simp only [vector3.distance, e]
    refine ⟨rfl, e, d, by rw [← d, F32.beq_def, F32.eq_self], fun hf => ?_⟩
    simp only [vector3.all, Bool.and_eq_true] at hf
    have z : a.distance F32.sqrt a = 0 := by
      simp only [vector3.distance, vector3.length, vector3.length_squared, vector3.dot, vector3_sub_def,
        F32.sub_self _ hf.1.1, F32.sub_self _ hf.1.2, F32.sub_self _ hf.2]
      decide
    exact ⟨z, by rw [z]; decide⟩
  · intro a b
    have e : (a - b).length F32.sqrt = (b - a).length F32.sqrt := by
      simp only [vector4.length, vector4.length_squared, vector4.dot, vector4_sub_def,
        F32.sq_sub_swap a.x b.x, F32.sq_sub_swap a.y b.y, F32.sq_sub_swap a.z b.z, F32.sq_sub_swap a.w b.w]
    have d : a.distance F32.sqrt b = b.distance F32.sqrt a := by
      simp only [vector4.distance, e]
    refine ⟨rfl, e, d, by rw [← d, F32.beq_def, F32.eq_self], fun hf => ?_⟩
    simp only [vector4.all, Bool.and_eq_true] at hf
    have z : a.distance F32.sqrt a = 0 := by
      simp only [vector4.distance, vector4.length, vector4.length_squared, vector4.dot, vector4_sub_def,
        F32.sub_self _ hf.1.1.1, F32.sub_self _ hf.1.1.2, F32.sub_self _ hf.1.2, F32.sub_self _ hf.2]
      decide
    exact ⟨z, by rw [z]; decide⟩

/-- For `a = (1, 2)` and `b = (4, 6)`: `a.distance(b)` and `b.distance(a)` are both `5`,
and `a.distance(a)` is `0`. -/
theorem distance_symmetric_witness :
    (⟨1, F32.ofNat 2⟩ : vector2 F32).all F32.isFinite = true ∧
    (⟨1, F32.ofNat 2⟩ : vector2 F32).distance F32.sqrt ⟨F32.ofNat 4, F32.ofNat 6⟩
      = F32.ofNat 5 ∧
    (⟨1, F32.ofNat 2⟩ : vector2 F32).distance F32.sqrt ⟨F32.ofNat 4, F32.ofNat 6⟩
      = (⟨F32.ofNat 4, F32.ofNat 6⟩ : vector2 F32).distance F32.sqrt ⟨1, F32.ofNat 2⟩ ∧
    (⟨1, F32.ofNat 2⟩ : vector2 F32).distance F32.sqrt ⟨1, F32.ofNat 2⟩ = 0 :=
  have h := distance_symmetric.1 ⟨1, F32.ofNat 2⟩ ⟨F32.ofNat 4, F32.ofNat 6⟩
  ⟨by decide, by decide, h.2.2.1,
   ((distance_symmetric.1 ⟨1, F32.ofNat 2⟩ ⟨1, F32.ofNat 2⟩).2.2.2.2 (by decide)).1⟩

/-! ## Text output -/

/-- C18. For each arity and every vector `v`, division by the scalar `0.0` (as
`operator/` and as `operator/=`) is a total operation whose result has only infinite
or NaN components, and element-wise division by a vector gives an infinite or NaN
component wherever the divisor has a zero component, of either sign; for instance
`vector2(1, 0) / 0.0` is `(+∞, NaN)`. -/
theorem div_by_zero_inf_or_nan :
    ((∀ v : vector2 F32,
        (v / (0 : F32) : vector2 F32) = vector2.div_assign_scalar v 0 ∧
        (v / (0 : F32) : vector2 F32).all (fun c => c.isInf || c.isNaN) = true) ∧
      (∀ v w : vector2 F32, v / w = vector2.div_assign v w ∧
        (w.x = 0 ∨ w.x = -0 → ((v / w).x.isInf || (v / w).x.isNaN) = true) ∧
        (w.y = 0 ∨ w.y = -0 → ((v / w).y.isInf || (v / w).y.isNaN) = true))) ∧
    ((∀ v : vector3 F32,
        (v / (0 : F32) : vector3 F32) = vector3.div_assign_scalar v 0 ∧
        (v / (0 : F32) : vector3 F32).all (fun c => c.isInf || c.isNaN) = true) ∧
      (∀ v w : vector3 F32, v / w = vector3.div_assign v w ∧
        (w.x = 0 ∨ w.x = -0 → ((v / w).x.isInf || (v / w).x.isNaN) = true) ∧
        (w.y = 0 ∨ w.y = -0 → ((v / w).y.isInf || (v / w).y.isNaN) = true) ∧
        (w.z = 0 ∨ w.z = -0 → ((v / w).z.isInf || (v / w).z.isNaN) = true))) ∧
    ((∀ v : vector4 F32,
        (v / (0 : F32) : vector4 F32) = vector4.div_assign_scalar v 0 ∧
        (v / (0 : F32) : vector4 F32).all (fun c => c.isInf || c.isNaN) = true) ∧
      (∀ v w : vector4 F32, v / w = vector4.div_assign v w ∧
        (w.x = 0 ∨ w.x = -0 → ((v / w).x.isInf || (v / w).x.isNaN) = true) ∧
        (w.y = 0 ∨ w.y = -0 → ((v / w).y.isInf || (v / w).y.isNaN) = true) ∧
        (w.z = 0 ∨ w.z = -0 → ((v / w).z.isInf || (v / w).z.isNaN) = true) ∧
        (w.w = 0 ∨ w.w = -0 → ((v / w).w.isInf || (v / w).w.isNaN) = true))) ∧
    ((⟨1, 0⟩ : vector2 F32) / (0 : F32) : vector2 F32) = ⟨F32.inf false, F32.nan⟩ := by
  refine ⟨⟨?_, ?_⟩, ⟨?_, ?_⟩, ⟨?_, ?_⟩, by decide⟩
  · rintro ⟨x, y⟩
    refine ⟨rfl, ?_⟩
    simp only [vector2_div_scalar_def, vector2.all, F32.zero_def, F32.div_zero, Bool.and_self]
  · rintro ⟨x, y⟩ ⟨wx, wy⟩
    refine ⟨rfl, ?_, ?_⟩ <;>
      · rintro (h | h) <;> simp only at h <;> subst h
        · exact F32.div_zero _ false
        · exact F32.div_zero _ true
  · rintro ⟨x, y, z⟩
    refine ⟨rfl, ?_⟩
    simp only [vector3_div_scalar_def, vector3.all, F32.zero_def, F32.div_zero, Bool.and_self]
  · rintro ⟨x, y, z⟩ ⟨wx, wy, wz⟩
    refine ⟨rfl, ?_, ?_, ?_⟩ <;>
      · rintro (h | h) <;> simp only at h <;> subst h
        · exact F32.div_zero _ false
        · exact F32.div_zero _ true
  · rintro ⟨x, y, z, w⟩
    refine ⟨rfl, ?_⟩
    simp only [vector4_div_scalar_def, vector4.all, F32.zero_def, F32.div_zero, Bool.and_self]
  · rintro ⟨x, y, z, w⟩ ⟨wx, wy, wz, ww⟩
    refine ⟨rfl, ?_, ?_, ?_, ?_⟩ <;>
      · rintro (h | h) <;> simp only at h <;> subst h
        · exact F32.div_zero _ false
        · exact F32.div_zero _ true

/-- Dividing `(1, 2)` element-wise by `(0, 4)` gives `+∞` in the x-component. -/
theorem div_by_zero_inf_or_nan_witness :
    ((0 : F32) = 0 ∨ (0 : F32) = -0) ∧
    ((((⟨1, F32.ofNat 2⟩ : vector2 F32) / ⟨0, F32.ofNat 4⟩).x.isInf
      || ((⟨1, F32.ofNat 2⟩ : vector2 F32) / ⟨0, F32.ofNat 4⟩).x.isNaN) = true) ∧
    ((⟨1, F32.ofNat 2⟩ : vector2 F32) / ⟨0, F32.ofNat 4⟩).x = F32.inf false :=
  ⟨Or.inl rfl,
   (div_by_zero_inf_or_nan.1.2 ⟨1, F32.ofNat 2⟩ ⟨0, F32.ofNat 4⟩).2.1 (Or.inl rfl),
   by decide⟩

/-! ## Clamp within ordered bounds -/

/-- C19, as stated, fails on binary32: for `v = (NaN, 0)`, `min = (0, 0)`,
`max = (1, 1)` the bounds are ordered, but the x-component of `clamp(v, min, max)` is
NaN, and `min.x <= NaN` is false. -/
theorem clamp_nan_out_of_bounds :
    ((0 : F32) ≤ 1) ∧
    (vector2.clamp (⟨F32.nan, 0⟩ : vector2 F32) ⟨0, 0⟩ ⟨1, 1⟩).x = F32.nan ∧
    ¬ ((0 : F32) ≤ (vector2.clamp (⟨F32.nan, 0⟩ : vector2 F32) ⟨0, 0⟩ ⟨1, 1⟩).x) := by
  decide

/-- C19, amended. For each arity and all vectors `v`, `min`, `max` with
`min[i] <= max[i]` in every component: component `i` of `clamp(v, min, max)` is
`std::clamp(v[i], min[i], max[i])`, whatever the other components are; it satisfies
`min[i] <= clamp(v, min, max)[i] <= max[i]` whenever `v[i]` is not NaN; and
`clamp(v, min, max)` is `v`, and `== v`, whenever `v` lies within the bounds in every
component. -/
theorem clamp_within_bounds :
    (∀ v min max : vector2 F32, min.x ≤ max.x → min.y ≤ max.y →
      ((vector2.clamp v min max).x = std_clamp v.x min.x max.x ∧
        (vector2.clamp v min max).y = std_clamp v.y min.y max.y) ∧
      ((v.x.isNaN = false →
          min.x ≤ (vector2.clamp v min max).x ∧ (vector2.clamp v min max).x ≤ max.x) ∧
        (v.y.isNaN = false →
          min.y ≤ (vector2.clamp v min max).y ∧ (vector2.clamp v min max).y ≤ max.y)) ∧
      (min.x ≤ v.x → v.x ≤ max.x → min.y ≤ v.y → v.y ≤ max.y →
        vector2.clamp v min max = v ∧ (vector2.clamp v min max).eq v = true)) ∧
    (∀ v min max : vector3 F32, min.x ≤ max.x → min.y ≤ max.y → min.z ≤ max.z →
      ((vector3.clamp v min max).x = std_clamp v.x min.x max.x ∧
        (vector3.clamp v min max).y = std_clamp v.y min.y max.y ∧
        (vector3.clamp v min max).z = std_clamp v.z min.z max.z) ∧
      ((v.x.isNaN = false →
          min.x ≤ (vector3.clamp v min max).x ∧ (vector3.clamp v min max).x ≤ max.x) ∧
        (v.y.isNaN = false →
          min.y ≤ (vector3.clamp v min max).y ∧ (vector3.clamp v min max).y ≤ max.y) ∧
        (v.z.isNaN = false →
          min.z ≤ (vector3.clamp v min max).z ∧ (vector3.clamp v min max).z ≤ max.z)) ∧
      (min.x ≤ v.x → v.x ≤ max.x → min.y ≤ v.y → v.y ≤ max.y → min.z ≤ v.z → v.z ≤ max.z →
        vector3.clamp v min max = v ∧ (vector3.clamp v min max).eq v = true)) ∧
    (∀ v min max : vector4 F32, min.x ≤ max.x → min.y ≤ max.y → min.z ≤ max.z → min.w ≤ max.w →
      ((vector4.clamp v min max).x = std_clamp v.x min.x max.x ∧
        (vector4.clamp v min max).y = std_clamp v.y min.y max.y ∧
        (vector4.clamp v min max).z = std_clamp v.z min.z max.z ∧
        (vector4.clamp v min max).w = std_clamp v.w min.w max.w) ∧
      ((v.x.isNaN = false →
          min.x ≤ (vector4.clamp v min max).x ∧ (vector4.clamp v min max).x ≤ max.x) ∧
        (v.y.isNaN = false →
          min.y ≤ (vector4.clamp v min max).y ∧ (vector4.clamp v min max).y ≤ max.y) ∧
        (v.z.isNaN = false →
          min.z ≤ (vector4.clamp v min max).z ∧ (vector4.clamp v min max).z ≤ max.z) ∧
        (v.w.isNaN = false →
          min.w ≤ (vector4.clamp v min max).w ∧ (vector4.clamp v min max).w ≤ max.w)) ∧
      (min.x ≤ v.x → v.x ≤ max.x → min.y ≤ v.y → v.y ≤ max.y → min.z ≤ v.z → v.z ≤ max.z → min.w ≤ v.w → v.w ≤ max.w →
        vector4.clamp v min max = v ∧ (vector4.clamp v min max).eq v = true)) := by
  refine ⟨?_, ?_, ?_⟩
  · intro v min max hx hy
    refine ⟨⟨rfl, rfl⟩,
      ⟨fun hn => std_clamp_bounds _ _ _ hx hn, fun hn => std_clamp_bounds _ _ _ hy hn⟩,
      fun lx ux ly uy => ?_⟩
    have e : vector2.clamp v min max = v := by
      simp only [vector2.clamp, std_clamp_of_mem _ _ _ lx ux, std_clamp_of_mem _ _ _ ly uy]
    refine ⟨e, ?_⟩
    rw [e]
    simp [vector2.eq, F32.beq_def, F32.eq_self, (F32.isNaN_of_le lx).2, (F32.isNaN_of_le ly).2]
  · intro v min max hx hy hz
    refine ⟨⟨rfl, rfl, rfl⟩,
      ⟨fun hn => std_clamp_bounds _ _ _ hx hn, fun hn => std_clamp_bounds _ _ _ hy hn, fun hn => std_clamp_bounds _ _ _ hz hn⟩,
      fun lx ux ly uy lz uz => ?_⟩
    have e : vector3.clamp v min max = v := by
      simp only [vector3.clamp, std_clamp_of_mem _ _ _ lx ux, std_clamp_of_mem _ _ _ ly uy, std_clamp_of_mem _ _ _ lz uz]
    refine ⟨e, ?_⟩
    rw [e]
    simp [vector3.eq, F32.beq_def, F32.eq_self, (F32.isNaN_of_le lx).2, (F32.isNaN_of_le ly).2, (F32.isNaN_of_le lz).2]
  · intro v min max hx hy hz hw
    refine ⟨⟨rfl, rfl, rfl, rfl⟩,
      ⟨fun hn => std_clamp_bounds _ _ _ hx hn, fun hn => std_clamp_bounds _ _ _ hy hn, fun hn => std_clamp_bounds _ _ _ hz hn, fun hn => std_clamp_bounds _ _ _ hw hn⟩,
      fun lx ux ly uy lz uz lw uw => ?_⟩
    have e : vector4.clamp v min max = v := by
      simp only [vector4.clamp, std_clamp_of_mem _ _ _ lx ux, std_clamp_of_mem _ _ _ ly uy, std_clamp_of_mem _ _ _ lz uz, std_clamp_of_mem _ _ _ lw uw]
    refine ⟨e, ?_⟩
    rw [e]
    simp [vector4.eq, F32.beq_def, F32.eq_self, (F32.isNaN_of_le lx).2, (F32.isNaN_of_le ly).2, (F32.isNaN_of_le lz).2, (F32.isNaN_of_le lw).2]

/-- Clamping `(7, -3)` to the box from `(0, 0)` to `(5, 5)` gives `(5, 0)`, within the
bounds; `(2, 3)` lies in the box and is returned as it is. -/
theorem clamp_within_bounds_witness :
    (((0 : F32) ≤ F32.ofNat 5) ∧ ((0 : F32) ≤ F32.ofNat 2) ∧ (F32.ofNat 2 ≤ F32.ofNat 5) ∧
      ((0 : F32) ≤ F32.ofNat 3) ∧ (F32.ofNat 3 ≤ F32.ofNat 5)) ∧
    ((0 : F32) ≤ (vector2.clamp (⟨F32.ofNat 7, -F32.ofNat 3⟩ : vector2 F32) ⟨0, 0⟩
        ⟨F32.ofNat 5, F32.ofNat 5⟩).x ∧
      (vector2.clamp (⟨F32.ofNat 7, -F32.ofNat 3⟩ : vector2 F32) ⟨0, 0⟩
        ⟨F32.ofNat 5, F32.ofNat 5⟩).x ≤ F32.ofNat 5) ∧
    vector2.clamp (⟨F32.ofNat 2, F32.ofNat 3⟩ : vector2 F32) ⟨0, 0⟩
      ⟨F32.ofNat 5, F32.ofNat 5⟩ = ⟨F32.ofNat 2, F32.ofNat 3⟩ :=
  ⟨⟨by decide, by decide, by decide, by decide, by decide⟩,
   (clamp_within_bounds.1 ⟨F32.ofNat 7, -F32.ofNat 3⟩ ⟨0, 0⟩ ⟨F32.ofNat 5, F32.ofNat 5⟩
     (by decide) (by decide)).2.1.1 (by decide),
   ((clamp_within_bounds.1 ⟨F32.ofNat 2, F32.ofNat 3⟩ ⟨0, 0⟩ ⟨F32.ofNat 5, F32.ofNat 5⟩
     (by decide) (by decide)).2.2 (by decide) (by decide) (by decide) (by decide)).1⟩

/-! ## Direction of the normalised vector -/

/-- C20. For each arity and every vector `v` with `length(v) > 0`: `normalized(v)` is
`v / length(v)`, on `float` as over the reals; in exact arithmetic (the reals,
`std::sqrt` as the real square root) `normalized(v) * length(v)` is `v`, and
`normalized(normalized(v))` is `normalized(v)`. -/
theorem normalized_direction :
    ((∀ v : vector2 F32, v.length F32.sqrt > 0 →
        v.normalized F32.sqrt = v / v.length F32.sqrt) ∧
      (∀ v : vector2 ℝ, v.length Real.sqrt > 0 →
        v.normalized Real.sqrt = v / v.length Real.sqrt ∧
        (v.normalized Real.sqrt * v.length Real.sqrt : vector2 ℝ) = v ∧
        (v.normalized Real.sqrt).normalized Real.sqrt = v.normalized Real.sqrt)) ∧
    ((∀ v : vector3 F32, v.length F32.sqrt > 0 →
        v.normalized F32.sqrt = v / v.length F32.sqrt) ∧
      (∀ v : vector3 ℝ, v.length Real.sqrt > 0 →
        v.normalized Real.sqrt = v / v.length Real.sqrt ∧
        (v.normalized Real.sqrt * v.length Real.sqrt : vector3 ℝ) = v ∧
        (v.normalized Real.sqrt).normalized Real.sqrt = v.normalized Real.sqrt)) ∧
    ((∀ v : vector4 F32, v.length F32.sqrt > 0 →
        v.normalized F32.sqrt = v / v.length F32.sqrt) ∧
      (∀ v : vector4 ℝ, v.length Real.sqrt > 0 →
        v.normalized Real.sqrt = v / v.length Real.sqrt ∧
        (v.normalized Real.sqrt * v.length Real.sqrt : vector4 ℝ) = v ∧
        (v.normalized Real.sqrt).normalized Real.sqrt = v.normalized Real.sqrt)) := by
  refine ⟨⟨?_, ?_⟩, ⟨?_, ?_⟩, ⟨?_, ?_⟩⟩
  · intro v h
    simp only [vector2.normalized, h, if_true]
  · intro v h
    have e : v.normalized Real.sqrt = v / v.length Real.sqrt := by
      simp only [vector2.normalized, h, if_true]
    have h1 := vector2_length_normalized_real v h
    refine ⟨e, ?_, ?_⟩
    · rw [e, vector2_div_scalar_def, vector2_mul_scalar_def]
      simp only [div_mul_cancel₀ _ (ne_of_gt h)]
    · generalize v.normalized Real.sqrt = u at h1
      have p : (1 : ℝ) > 0 := one_pos
      simp only [vector2.normalized, h1, p, if_true, vector2_div_scalar_def, div_one]
  · intro v h
    simp only [vector3.normalized, h, if_true]
  · intro v h
    have e : v.normalized Real.sqrt = v / v.length Real.sqrt := by
      simp only [vector3.normalized, h, if_true]
    have h1 := vector3_length_normalized_real v h
    refine ⟨e, ?_, ?_⟩
    · rw [e, vector3_div_scalar_def, vector3_mul_scalar_def]
      simp only [div_mul_cancel₀ _ (ne_of_gt h)]
    · generalize v.normalized Real.sqrt = u at h1
      have p : (1 : ℝ) > 0 := one_pos
      simp only [vector3.normalized, h1, p, if_true, vector3_div_scalar_def, div_one]
  · intro v h
    simp only [vector4.normalized, h, if_true]
  · intro v h
    have e : v.normalized Real.sqrt = v / v.length Real.sqrt := by
      simp only [vector4.normalized, h, if_true]
    have h1 := vector4_length_normalized_real v h
    refine ⟨e, ?_, ?_⟩
    · rw [e, vector4_div_scalar_def, vector4_mul_scalar_def]
      simp only [div_mul_cancel₀ _ (ne_of_gt h)]
    · generalize v.normalized Real.sqrt = u at h1
      have p : (1 : ℝ) > 0 := one_pos
      simp only [vector4.normalized, h1, p, if_true, vector4_div_scalar_def, div_one]

/-- For `v = (3, 4)` over the reals: the length `√25` is positive,
`normalized(v) * length(v)` is `v`, and normalising twice is normalising once. -/
theorem normalized_direction_witness :
    (⟨3, 4⟩ : vector2 ℝ).length Real.sqrt > 0 ∧
    ((⟨3, 4⟩ : vector2 ℝ).normalized Real.sqrt * (⟨3, 4⟩ : vector2 ℝ).length Real.sqrt
      : vector2 ℝ) = ⟨3, 4⟩ ∧
    ((⟨3, 4⟩ : vector2 ℝ).normalized Real.sqrt).normalized Real.sqrt
      = (⟨3, 4⟩ : vector2 ℝ).normalized Real.sqrt :=
  have p : (⟨3, 4⟩ : vector2 ℝ).length Real.sqrt > 0 :=
    Real.sqrt_pos.mpr (by norm_num [vector2.length_squared, vector2.dot])
  ⟨p, (normalized_direction.1.2 ⟨3, 4⟩ p).2⟩

/-- On `float` the last two statements of C20 are subject to rounding: for `v = (1, 1)`
the length of `normalized(v)` rounds to the `float` just below `1`, and normalising
again moves both components. -/
theorem normalized_twice_rounding :
    (⟨1, 1⟩ : vector2 F32).length F32.sqrt > 0 ∧
    (((⟨1, 1⟩ : vector2 F32).normalized F32.sqrt).length F32.sqrt == (1 : F32)) = false ∧
    (((⟨1, 1⟩ : vector2 F32).normalized F32.sqrt).normalized F32.sqrt).eq
      ((⟨1, 1⟩ : vector2 F32).normalized F32.sqrt) = false := by
  decide
